import Mathlib

/-!
Verification of the KaliGpt findings-and-decision pipeline.

This file gives a shallow embedding, in Lean 4, of the parts of the
program that the specification talks about: the nmap and hydra output
parsers, the parser dispatcher, the decision engine, the advisory
response parser, the session context manager and the model selector.
Python strings are modelled as `List Char`; Python string methods
(`strip`, `split`, `lower`, `replace`, `in`, `startswith`) are given
explicit executable definitions with matching semantics; the small
regular expressions used by the parsers are embedded as direct
matchers whose backtracking behaviour on the relevant alphabet agrees
with the originals.  Fallible operations are made explicit, and
nondeterministic timestamps become explicit parameters.
-/

namespace KaliGpt

/-- Convert a string literal to the character-list representation used
throughout the embedding. -/
def cs (s : String) : List Char := s.toList

/-- Python `str` default whitespace characters (those stripped by
`str.strip()` and used by `str.split()` / `\s`). -/
def isPySpace (c : Char) : Bool :=
  c = ' ' || c = '\t' || c = '\n' || c = '\r' || c = Char.ofNat 11 || c = Char.ofNat 12

/-- Python `str.strip()`: drop whitespace from both ends. -/
def pyStrip (s : List Char) : List Char :=
  (s.dropWhile isPySpace).rdropWhile isPySpace

/-- Python `str.lower()` (ASCII case folding, which is all the program uses). -/
def pyLower (s : List Char) : List Char := s.map Char.toLower

/-- Python `s.split(sep)` for a one-character separator: keeps empty pieces,
and the split of the empty string is `[[]]`. -/
def splitOnCh (sep : Char) : List Char → List (List Char)
  | [] => [[]]
  | c :: rest =>
    if c = sep then [] :: splitOnCh sep rest
    else
      match splitOnCh sep rest with
      | [] => [[c]]
      | h :: t => (c :: h) :: t

/-- Auxiliary accumulator for `pySplitWS`. -/
def splitWSAux : List Char → List Char → List (List Char)
  | [], acc => if acc = [] then [] else [acc.reverse]
  | c :: rest, acc =>
    if isPySpace c then
      if acc = [] then splitWSAux rest []
      else acc.reverse :: splitWSAux rest []
    else splitWSAux rest (c :: acc)

/-- Python `str.split()` with no argument: split on whitespace runs,
dropping empty tokens. -/
def pySplitWS (s : List Char) : List (List Char) := splitWSAux s []

/-- Python `pat in s` substring test. -/
def containsSubstr (pat : List Char) : List Char → Bool
  | [] => pat.isEmpty
  | s@(_ :: t) => pat.isPrefixOf s || containsSubstr pat t

/-- Python `s.startswith(pat)`. -/
def pyStartsWith (pat s : List Char) : Bool := pat.isPrefixOf s

/-- Python `s.endswith(pat)`. -/
def pyEndsWith (pat s : List Char) : Bool := pat.isSuffixOf s

/-- Recursion core of `replaceAll`: the fuel only serves structural
termination and is always at least the length of the remaining text, so
the zero-fuel row is unreachable from the wrapper. -/
def replaceAllAux (pat rep : List Char) : Nat → List Char → List Char
  | _, [] => []
  | 0, s => s
  | Nat.succ fuel, c :: rest =>
    if pat ≠ [] ∧ pat.isPrefixOf (c :: rest) then
      rep ++ replaceAllAux pat rep fuel ((c :: rest).drop pat.length)
    else c :: replaceAllAux pat rep fuel rest

/-- Python `s.replace(pat, rep)` for a nonempty pattern: left-to-right,
non-overlapping replacement of every occurrence. -/
def replaceAll (pat rep s : List Char) : List Char :=
  replaceAllAux pat rep s.length s

/-- Python `int(...)` on a string of decimal digits. -/
def natOfDigits (s : List Char) : Nat :=
  s.foldl (fun n c => 10 * n + (c.toNat - 48)) 0

/-- Python `s.lstrip(set)`: drop leading characters belonging to `set`. -/
def lstripSet (set : List Char) (s : List Char) : List Char :=
  s.dropWhile (fun c => set.contains c)

/-- `\d` of the `re` module (ASCII inputs). -/
def isDigitCh (c : Char) : Bool := '0' ≤ c && c ≤ '9'

/-- `\w` of the `re` module (ASCII inputs): letters, digits, underscore. -/
def isWordCh (c : Char) : Bool :=
  ('a' ≤ c && c ≤ 'z') || ('A' ≤ c && c ≤ 'Z') || isDigitCh c || c = '_'

/-- `\S` of the `re` module. -/
def isNonSpace (c : Char) : Bool := !isPySpace c

namespace NmapParser

/-- The five capture groups of the compiled pattern
`(\d+)/(\w+)\s+(\w+)\s+(\S+)(?:\s+(.+))?` of `nmap_parser.py`. -/
structure PortGroups where
  g1 : List Char
  g2 : List Char
  g3 : List Char
  g4 : List Char
  g5 : Option (List Char)
  deriving Repr, DecidableEq

/-- Match the port pattern anchored at the start of `s`.  Each quantifier is
greedy; on this pattern a maximal-munch scan agrees with the backtracking
engine because every pair of adjacent character classes is disjoint
(digit then `/`, word then space, space then non-space), and the trailing
optional group either succeeds after the maximal `\S+` or matches empty. -/
def portMatchHere (s : List Char) : Option PortGroups :=
  let (d, s1) := s.span isDigitCh
  if d = [] then none else
  match s1 with
  | '/' :: s2 =>
    let (w1, s3) := s2.span isWordCh
    if w1 = [] then none else
    let (sp1, s4) := s3.span isPySpace
    if sp1 = [] then none else
    let (w2, s5) := s4.span isWordCh
    if w2 = [] then none else
    let (sp2, s6) := s5.span isPySpace
    if sp2 = [] then none else
    let (t, s7) := s6.span isNonSpace
    if t = [] then none else
    let (sp3, s8) := s7.span isPySpace
    if sp3 = [] ∨ s8 = [] then some ⟨d, w1, w2, t, none⟩
    else some ⟨d, w1, w2, t, some s8⟩
  | _ => none

/-- `re.search` for the port pattern: leftmost starting position wins. -/
def portSearch : List Char → Option PortGroups
  | [] => none
  | c :: t =>
    match portMatchHere (c :: t) with
    | some g => some g
    | none => portSearch t

/-- `re.search` for a pattern of the shape `LITERAL(.+)`, as used by
`host_pattern` (`Nmap scan report for (.+)`) and `os_pattern`
(`Running: (.+)`): find the leftmost occurrence of the literal that is
followed by at least one character and capture the rest. -/
def litDotPlusSearch (lit : List Char) : List Char → Option (List Char)
  | [] => none
  | c :: t =>
    if lit.isPrefixOf (c :: t) ∧ (c :: t).drop lit.length ≠ [] then
      some ((c :: t).drop lit.length)
    else litDotPlusSearch lit t

/-- The literal part of `host_pattern`. -/
def hostLit : List Char := cs "Nmap scan report for "

/-- The literal part of `os_pattern`. -/
def osLit : List Char := cs "Running: "

/-- The static vulnerability info carried by `_check_vulnerability`. -/
structure VulnInfo where
  name : List Char
  severity : List Char
  cve : List Char
  description : List Char
  exploit : List Char
  deriving Repr, DecidableEq

/-- The `vulnerabilities` table of `_check_vulnerability`: each known port
maps to a single `version-substring ↦ info` entry. -/
def vulnTable (port : Nat) : Option (List Char × VulnInfo) :=
  if port = 21 then
    some (cs "vsftpd 2.3.4",
      ⟨cs "vsftpd 2.3.4 Backdoor", cs "critical", cs "N/A",
       cs "Backdoor command execution", cs "exploit/unix/ftp/vsftpd_234_backdoor"⟩)
  else if port = 22 then
    some (cs "OpenSSH 7.2",
      ⟨cs "OpenSSH Username Enumeration", cs "medium", cs "CVE-2016-6210",
       cs "Username enumeration via timing attack", cs "auxiliary/scanner/ssh/ssh_enumusers"⟩)
  else if port = 445 then
    some (cs "Samba 3.0.20",
      ⟨cs "Samba Username Map Script", cs "critical", cs "CVE-2007-2447",
       cs "Command execution vulnerability", cs "exploit/multi/samba/usermap_script"⟩)
  else if port = 3306 then
    some (cs "MySQL 5.0",
      ⟨cs "MySQL Authentication Bypass", cs "high", cs "CVE-2012-2122",
       cs "Authentication bypass vulnerability",
       cs "auxiliary/scanner/mysql/mysql_authbypass_hashdump"⟩)
  else none

/-- A vulnerability dict produced by the line-oriented path (it never has a
`host` key). -/
structure Vulnerability where
  port : Nat
  service : List Char
  version : List Char
  name : List Char
  severity : List Char
  cve : List Char
  description : List Char
  exploit : List Char
  deriving Repr, DecidableEq

/-- `NmapParser._check_vulnerability` for the line-oriented path: the version
key must occur, case-insensitively, as a substring of the observed version. -/
def checkVulnerability (port : Nat) (service version : List Char) :
    Option Vulnerability :=
  match vulnTable port with
  | none => none
  | some (key, info) =>
    if containsSubstr (pyLower key) (pyLower version) then
      some ⟨port, service, version, info.name, info.severity, info.cve,
            info.description, info.exploit⟩
    else none

/-- A `port_info` dict of the line-oriented path. -/
structure PortInfo where
  host : List Char
  port : Nat
  protocol : List Char
  state : List Char
  service : List Char
  version : List Char
  deriving Repr, DecidableEq

/-- The `summary` dict. -/
structure Summary where
  total_hosts : Nat
  open_ports_count : Nat
  filtered_ports_count : Nat
  vulnerabilities_found : Nat
  deriving Repr, DecidableEq

/-- The result dict of `NmapParser.parse`. -/
structure NmapResult where
  tool : List Char
  targets : List (List Char)
  open_ports : List PortInfo
  filtered_ports : List PortInfo
  closed_ports : List PortInfo
  os_detection : List (List Char)
  vulnerabilities : List Vulnerability
  summary : Summary
  deriving Repr, DecidableEq

/-- Loop state of the line loop in `NmapParser.parse`: the mutable result
buckets plus the `current_host` local. -/
structure LoopState where
  current_host : Option (List Char)
  targets : List (List Char)
  open_ports : List PortInfo
  filtered_ports : List PortInfo
  closed_ports : List PortInfo
  os_detection : List (List Char)
  vulnerabilities : List Vulnerability
  deriving Repr, DecidableEq

/-- One iteration of the line loop of `NmapParser.parse`. -/
def stepLine (st : LoopState) (rawLine : List Char) : LoopState :=
  let line := pyStrip rawLine
  match litDotPlusSearch hostLit line with
  | some h =>
    { st with current_host := some h,
              targets := if st.targets.contains h then st.targets
                         else st.targets ++ [h] }
  | none =>
    let st1 :=
      match portSearch line, st.current_host with
      | some g, some host =>
        let port := natOfDigits g.g1
        let version := match g.g5 with | some v => v | none => []
        let pi : PortInfo := ⟨host, port, g.g2, g.g3, g.g4, pyStrip version⟩
        let st2 :=
          if pyLower g.g3 = cs "open" then
            { st with open_ports := st.open_ports ++ [pi] }
          else if pyLower g.g3 = cs "filtered" then
            { st with filtered_ports := st.filtered_ports ++ [pi] }
          else if pyLower g.g3 = cs "closed" then
            { st with closed_ports := st.closed_ports ++ [pi] }
          else st
        match checkVulnerability port g.g4 version with
        | some v => { st2 with vulnerabilities := st2.vulnerabilities ++ [v] }
        | none => st2
      | _, _ => st
    match litDotPlusSearch osLit line with
    | some os => { st1 with os_detection := st1.os_detection ++ [os] }
    | none => st1

/-- The initial loop state. -/
def initState : LoopState := ⟨none, [], [], [], [], [], []⟩

/-- `NmapParser.parse`: split into lines, run the line loop, then build the
summary. -/
def parse (output : List Char) : NmapResult :=
  let st := (splitOnCh '\n' output).foldl stepLine initState
  { tool := cs "nmap"
    targets := st.targets
    open_ports := st.open_ports
    filtered_ports := st.filtered_ports
    closed_ports := st.closed_ports
    os_detection := st.os_detection
    vulnerabilities := st.vulnerabilities
    summary := ⟨st.targets.length, st.open_ports.length,
                st.filtered_ports.length, st.vulnerabilities.length⟩ }

/-- An element of the XML DOM handed to `NmapParser.parse_xml` (the
`xml.etree.ElementTree` view of it: a tag, an attribute map and child
elements).  Reading the file from disk is I/O and outside the model;
`parse_xml` is embedded as a function of the already-parsed tree. -/
inductive XElem where
  | node (tag : List Char) (attrs : List (List Char × List Char))
         (children : List XElem)

/-- The tag of an element. -/
def XElem.tag : XElem → List Char
  | .node t _ _ => t

/-- The attribute list of an element. -/
def XElem.attrs : XElem → List (List Char × List Char)
  | .node _ a _ => a

/-- The children of an element. -/
def XElem.childs : XElem → List XElem
  | .node _ _ c => c

/-- `elem.get(key)`: attribute lookup, `None` when absent. -/
def XElem.getAttr (e : XElem) (key : List Char) : Option (List Char) :=
  (e.attrs.find? (fun kv => kv.1 = key)).map Prod.snd

mutual

/-- All proper descendants of an element in document (preorder) order;
this is what the `.//` axis of `findall`/`find` ranges over. -/
def XElem.descendants : XElem → List XElem
  | .node _ _ c => XElem.descendantsList c

/-- Preorder traversal of a forest: each root followed by its descendants. -/
def XElem.descendantsList : List XElem → List XElem
  | [] => []
  | e :: es => e :: (XElem.descendants e ++ XElem.descendantsList es)

end

/-- `elem.findall('.//tag')`. -/
def XElem.findallTag (e : XElem) (t : List Char) : List XElem :=
  e.descendants.filter (fun d => d.tag = t)

/-- `elem.find('.//tag')`. -/
def XElem.findTag (e : XElem) (t : List Char) : Option XElem :=
  (e.findallTag t).head?

/-- `host.find('.//address[@addrtype=...]')`. -/
def XElem.findAddress (e : XElem) (atype : List Char) : Option XElem :=
  (e.descendants.filter
    (fun d => d.tag = cs "address" ∧ d.getAttr (cs "addrtype") = some atype)).head?

/-- The Python exceptions `parse_xml` can run into (they are caught by its
`except` clause and turned into the error-shaped result). -/
inductive PyExc where
  | typeError
  | valueError
  | attributeError
  deriving Repr, DecidableEq

/-- `int()` applied to the result of an attribute `.get`: `None` raises
`TypeError`, a non-digit string raises `ValueError` (sign, whitespace and
underscore forms do not occur in the inputs considered here). -/
def pyIntOfAttr : Option (List Char) → Except PyExc Nat
  | none => .error .typeError
  | some s => if s ≠ [] ∧ s.all isDigitCh then .ok (natOfDigits s) else .error .valueError

/-- A `port_info` dict of the XML path.  Fields read with `.get` can be the
Python `None`, modelled as `Option.none`; a missing `<state>`/`<service>`
element yields the literal defaults of the source. -/
structure XmlPortInfo where
  host : Option (List Char)
  hostname : Option (List Char)
  port : Nat
  protocol : Option (List Char)
  state : Option (List Char)
  service : Option (List Char)
  product : Option (List Char)
  version : Option (List Char)
  deriving Repr, DecidableEq

/-- A vulnerability dict produced by the XML path (it carries the extra
`host` key, and its `service` value can be `None`). -/
structure XmlVulnerability where
  port : Nat
  service : Option (List Char)
  version : List Char
  name : List Char
  severity : List Char
  cve : List Char
  description : List Char
  exploit : List Char
  host : Option (List Char)
  deriving Repr, DecidableEq

/-- An `os_detection` entry of the XML path. -/
structure OsMatch where
  name : Option (List Char)
  accuracy : Option (List Char)
  deriving Repr, DecidableEq

/-- `_check_vulnerability` as invoked from the XML path, where the version
argument may be the Python `None`: in that case reaching the substring test
raises `AttributeError` (`None.lower()`), which happens exactly when the
port has a table entry. -/
def checkVulnerabilityX (port : Nat) (service : Option (List Char))
    (version : Option (List Char)) : Except PyExc (Option XmlVulnerability) :=
  match vulnTable port with
  | none => .ok none
  | some (key, info) =>
    match version with
    | none => .error .attributeError
    | some v =>
      if containsSubstr (pyLower key) (pyLower v) then
        .ok (some ⟨port, service, v, info.name, info.severity, info.cve,
                   info.description, info.exploit, none⟩)
      else .ok none

/-- Accumulator for the XML host loop. -/
structure XmlAcc where
  targets : List (Option (List Char))
  open_ports : List XmlPortInfo
  os_detection : List OsMatch
  vulnerabilities : List XmlVulnerability
  deriving Repr, DecidableEq

/-- The body of the inner `for port in host.findall('.//port')` loop. -/
def xmlPortStep (host_addr : Option (List Char)) (hostname : Option (List Char))
    (acc : XmlAcc) (port : XElem) : Except PyExc XmlAcc := do
  let port_id ← pyIntOfAttr (port.getAttr (cs "portid"))
  let protocol := port.getAttr (cs "protocol")
  let state_val :=
    match port.findTag (cs "state") with
    | some st => st.getAttr (cs "state")
    | none => some (cs "unknown")
  let (service_name, service_product, service_version) :=
    match port.findTag (cs "service") with
    | some sv => (sv.getAttr (cs "name"), sv.getAttr (cs "product"),
                  sv.getAttr (cs "version"))
    | none => (some (cs "unknown"), some [], some [])
  let pi : XmlPortInfo :=
    ⟨host_addr, hostname, port_id, protocol, state_val,
     service_name, service_product, service_version⟩
  if state_val = some (cs "open") then
    let acc := { acc with open_ports := acc.open_ports ++ [pi] }
    match ← checkVulnerabilityX port_id service_name service_version with
    | some v =>
      return { acc with
               vulnerabilities := acc.vulnerabilities ++ [{ v with host := host_addr }] }
    | none => return acc
  else
    return acc

/-- The body of the outer `for host in root.findall('.//host')` loop. -/
def xmlHostStep (acc : XmlAcc) (host : XElem) : Except PyExc XmlAcc := do
  let address :=
    match host.findAddress (cs "ipv4") with
    | some a => some a
    | none => host.findAddress (cs "ipv6")
  match address with
  | none => return acc
  | some addr =>
    let host_addr := addr.getAttr (cs "addr")
    let acc := { acc with targets := acc.targets ++ [host_addr] }
    let hostname :=
      match host.findTag (cs "hostname") with
      | some h => h.getAttr (cs "name")
      | none => none
    let acc ← (host.findallTag (cs "port")).foldlM (xmlPortStep host_addr hostname) acc
    let osm := (host.findallTag (cs "osmatch")).take 3
    return { acc with
             os_detection := acc.os_detection ++
               osm.map (fun m => ⟨m.getAttr (cs "name"), m.getAttr (cs "accuracy")⟩) }

/-- The result of `NmapParser.parse_xml`: either the normal result dict or
the error-shaped dict built by its `except` clause. -/
inductive XmlResult where
  | ok (targets : List (Option (List Char))) (open_ports : List XmlPortInfo)
       (os_detection : List OsMatch) (vulnerabilities : List XmlVulnerability)
  | errorDict (e : PyExc)
  deriving Repr, DecidableEq

/-- `NmapParser.parse_xml` on the parsed DOM tree. -/
def parse_xml (root : XElem) : XmlResult :=
  match root.findallTag (cs "host") |>.foldlM xmlHostStep ⟨[], [], [], []⟩ with
  | .ok acc => .ok acc.targets acc.open_ports acc.os_detection acc.vulnerabilities
  | .error e => .errorDict e

end NmapParser

namespace HydraParser

/-- The five capture groups of the compiled pattern
`\[(\d+)\]\[(\w+)\]\s+host:\s*(\S+)\s+login:\s*(\S+)\s+password:\s*(.+)`. -/
structure CredGroups where
  g1 : List Char
  g2 : List Char
  g3 : List Char
  g4 : List Char
  g5 : List Char
  deriving Repr, DecidableEq

/-- Match the credential pattern anchored at the start of `s`.  As with the
port pattern, maximal munch agrees with the backtracking engine here:
shrinking any greedy run always puts an impossible character in front of
the following literal or class. -/
def credMatchHere (s : List Char) : Option CredGroups :=
  match s with
  | '[' :: s1 =>
    let (d, s2) := s1.span isDigitCh
    if d = [] then none else
    match s2 with
    | ']' :: '[' :: s3 =>
      let (w, s4) := s3.span isWordCh
      if w = [] then none else
      match s4 with
      | ']' :: s5 =>
        let (sp1, s6) := s5.span isPySpace
        if sp1 = [] then none else
        if (cs "host:").isPrefixOf s6 then
          let s7 := s6.drop 5
          let (_, s8) := s7.span isPySpace
          let (h, s9) := s8.span isNonSpace
          if h = [] then none else
          let (sp2, s10) := s9.span isPySpace
          if sp2 = [] then none else
          if (cs "login:").isPrefixOf s10 then
            let s11 := s10.drop 6
            let (_, s12) := s11.span isPySpace
            let (u, s13) := s12.span isNonSpace
            if u = [] then none else
            let (sp3, s14) := s13.span isPySpace
            if sp3 = [] then none else
            if (cs "password:").isPrefixOf s14 then
              let s15 := s14.drop 9
              let (_, s16) := s15.span isPySpace
              if s16 = [] then none else some ⟨d, w, h, u, s16⟩
            else none
          else none
        else none
      | _ => none
    | _ => none
  | _ => none

/-- `re.search` for the credential pattern. -/
def credSearch : List Char → Option CredGroups
  | [] => none
  | c :: t =>
    match credMatchHere (c :: t) with
    | some g => some g
    | none => credSearch t

/-- Try `(\d+\.\d+) tries/min` anchored at the start of `s`. -/
def speedHere (s : List Char) : Option (List Char) :=
  let (d1, r1) := s.span isDigitCh
  if d1 = [] then none else
  match r1 with
  | '.' :: r2 =>
    let (d2, r3) := r2.span isDigitCh
    if d2 = [] then none else
    if (cs " tries/min").isPrefixOf r3 then some (d1 ++ '.' :: d2) else none
  | _ => none

/-- The lazy gap `.*?` of `status_pattern`: starting right after the
`[STATUS]` literal, try the speed group at every position, nearest first. -/
def speedScan : List Char → Option (List Char)
  | [] => none
  | c :: t =>
    match speedHere (c :: t) with
    | some sp => some sp
    | none => speedScan t

/-- `re.search` for `\[STATUS\].*?(\d+\.\d+) tries/min`: the match starts at
an occurrence of `[STATUS]` whose tail contains the speed group; earlier
start positions are tried first. -/
def statusSearch : List Char → Option (List Char)
  | [] => none
  | c :: t =>
    if (cs "[STATUS]").isPrefixOf (c :: t) then
      match speedScan ((c :: t).drop 8) with
      | some sp => some sp
      | none => statusSearch t
    else statusSearch t

/-- Accumulator for `re.findall(r'\d+', line)`. -/
def digitRunsAux : List Char → List Char → List (List Char)
  | [], acc => if acc = [] then [] else [acc.reverse]
  | c :: t, acc =>
    if isDigitCh c then digitRunsAux t (c :: acc)
    else if acc = [] then digitRunsAux t []
    else acc.reverse :: digitRunsAux t []

/-- `re.findall(r'\d+', line)`: all maximal digit runs, left to right. -/
def digitRuns (s : List Char) : List (List Char) := digitRunsAux s []

/-- The service-name list scanned by `_extract_service`. -/
def serviceList : List (List Char) :=
  [cs "ftp", cs "ssh", cs "telnet", cs "http", cs "https", cs "smb", cs "smtp",
   cs "pop3", cs "imap", cs "rdp", cs "mysql", cs "postgres", cs "vnc",
   cs "ldap", cs "snmp", cs "mssql", cs "mongodb", cs "redis"]

/-- `HydraParser._extract_service`: the first list entry that occurs in the
lower-cased command, else `unknown`. -/
def extract_service (command : List Char) : List Char :=
  match serviceList.find? (fun sv => containsSubstr sv (pyLower command)) with
  | some sv => sv
  | none => cs "unknown"

/-- `\d{1,3}` immediately followed by `.`: greedy, so three digits are tried
first, then two, then one. -/
def tryOctetDot (s : List Char) (k : Nat) : Option (List Char × List Char) :=
  if s.length < k then none else
  let d := s.take k
  if d.all isDigitCh then
    match s.drop k with
    | '.' :: r => some (d, r)
    | _ => none
  else none

/-- The final `\d{1,3}\b` of the IP pattern: the character after the run (if
any) must not be a word character. -/
def tryOctetEnd (s : List Char) (k : Nat) : Option (List Char) :=
  if s.length < k then none else
  let d := s.take k
  if d.all isDigitCh then
    match s.drop k with
    | [] => some d
    | c :: _ => if isWordCh c then none else some d
  else none

/-- Match `\d{1,3}\.\d{1,3}\.\d{1,3}\.\d{1,3}\b` at the start of `s`, with
full backtracking across the four bounded repetitions. -/
def ipMatchHere (s : List Char) : Option (List Char) :=
  [3, 2, 1].findSome? fun k1 =>
    (tryOctetDot s k1).bind fun (d1, r1) =>
      [3, 2, 1].findSome? fun k2 =>
        (tryOctetDot r1 k2).bind fun (d2, r2) =>
          [3, 2, 1].findSome? fun k3 =>
            (tryOctetDot r2 k3).bind fun (d3, r3) =>
              [3, 2, 1].findSome? fun k4 =>
                (tryOctetEnd r3 k4).map fun d4 =>
                  d1 ++ '.' :: d2 ++ '.' :: d3 ++ '.' :: d4

/-- `re.search` for the IP pattern; `prev` is the character before the
current position, used for the leading `\b`. -/
def ipSearchAux : Option Char → List Char → Option (List Char)
  | _, [] => none
  | prev, c :: t =>
    let boundaryOk := match prev with | none => true | some p => !isWordCh p
    if boundaryOk then
      match ipMatchHere (c :: t) with
      | some ip => some ip
      | none => ipSearchAux (some c) t
    else ipSearchAux (some c) t

/-- The scheme tokens compared against whole command words. -/
def schemeTokens : List (List Char) :=
  [cs "ssh://", cs "ftp://", cs "http://", cs "https://"]

/-- The fallback loop of `_extract_target`: the word after a scheme token. -/
def schemeScan : List (List Char) → Option (List Char)
  | [] => none
  | p :: rest =>
    if schemeTokens.contains p then
      match rest with
      | n :: _ => some n
      | [] => schemeScan []
    else schemeScan rest

/-- `HydraParser._extract_target`. -/
def extract_target (command : List Char) : Option (List Char) :=
  match ipSearchAux none command with
  | some ip => some ip
  | none => schemeScan (pySplitWS command)

/-- An entry of `credentials_found`: the primary pattern yields a five-key
dict, the loose fallback path a three-key dict. -/
inductive CredEntry where
  | full (port protocol host username password : List Char)
  | loose (username password service : List Char)
  deriving Repr, DecidableEq

/-- The result dict of `HydraParser.parse`.  `speed` holds the text captured
by the last status match (`none` models the initial `0.0`, float conversion
being otherwise value-preserving on the captured shape). -/
structure HydraResult where
  tool : List Char
  command : List Char
  service : List Char
  target : Option (List Char)
  credentials_found : List CredEntry
  attempts : Nat
  valid_count : Nat
  status : List Char
  speed : Option (List Char)
  started : Bool
  completed : Bool
  deriving Repr, DecidableEq

/-- Loop state of `HydraParser.parse`: the mutable result fields plus the
`username`/`password` locals that leak across loop iterations (checked via
`locals()` by the fallback branch; `password` is also assigned by the
primary branch, `login` is a different variable). -/
structure HLoop where
  credentials_found : List CredEntry
  attempts : Nat
  valid_count : Nat
  status : List Char
  speed : Option (List Char)
  started : Bool
  completed : Bool
  usernameVar : Option (List Char)
  passwordVar : Option (List Char)
  deriving Repr, DecidableEq

/-- The inner `for i, part in enumerate(parts)` scan of the fallback branch,
updating the leaked `username`/`password` locals. -/
def partsScan : List (List Char) → Option (List Char) → Option (List Char) →
    Option (List Char) × Option (List Char)
  | [], u, p => (u, p)
  | part :: rest, u, p =>
    if containsSubstr (cs "login:") (pyLower part) ∧ rest ≠ [] then
      match rest with
      | n :: _ => partsScan rest (some n) p
      | [] => partsScan rest u p
    else if containsSubstr (cs "password:") (pyLower part) ∧ rest ≠ [] then
      partsScan rest u (some (List.intercalate (cs " ") rest))
    else partsScan rest u p

/-- One iteration of the line loop of `HydraParser.parse`. -/
def hydraStep (service : List Char) (st : HLoop) (rawLine : List Char) : HLoop :=
  let line := pyStrip rawLine
  let st :=
    if containsSubstr (cs "Starting") line || containsSubstr (cs "starting") line then
      { st with started := true }
    else st
  let st :=
    if pyStartsWith (cs "[STATUS]") line ∧
        containsSubstr (cs "attack finished") (pyLower line) then
      { st with completed := true, status := cs "completed" }
    else st
  let st :=
    match credSearch line with
    | some g =>
      { st with
        credentials_found := st.credentials_found ++ [.full g.g1 g.g2 g.g3 g.g4 g.g5],
        valid_count := st.valid_count + 1,
        passwordVar := some g.g5 }
    | none =>
      if containsSubstr (cs "[VALID]") line || containsSubstr (cs "valid") (pyLower line) then
        let parts := pySplitWS line
        if 4 ≤ parts.length then
          let (u, p) := partsScan parts st.usernameVar st.passwordVar
          match u, p with
          | some uv, some pv =>
            { st with
              credentials_found := st.credentials_found ++ [.loose uv pv service],
              usernameVar := u, passwordVar := p }
          | _, _ => { st with usernameVar := u, passwordVar := p }
        else st
      else st
  let st :=
    match statusSearch line with
    | some sp => { st with speed := some sp }
    | none => st
  if containsSubstr (cs "attempt") (pyLower line) || containsSubstr (cs "tried") (pyLower line) then
    match digitRuns line with
    | n :: _ => { st with attempts := max st.attempts (natOfDigits n) }
    | [] => st
  else st

/-- `HydraParser.parse`. -/
def parse (output command : List Char) : HydraResult :=
  let service := extract_service command
  let st0 : HLoop := ⟨[], 0, 0, cs "running", none, false, false, none, none⟩
  let st := (splitOnCh '\n' output).foldl (hydraStep service) st0
  let finalStatus :=
    if st.completed then
      if 0 < st.valid_count then cs "success" else cs "failed"
    else st.status
  { tool := cs "hydra"
    command := command
    service := service
    target := extract_target command
    credentials_found := st.credentials_found
    attempts := st.attempts
    valid_count := st.valid_count
    status := finalStatus
    speed := st.speed
    started := st.started
    completed := st.completed }

end HydraParser

namespace DecisionEngine

/-- Decimal rendering used where the source interpolates an int. -/
def natToCs (n : Nat) : List Char := (toString n).toList

/-- f-string rendering of a value that may be the Python `None`. -/
def pyShowOpt (o : Option (List Char)) : List Char :=
  match o with
  | some s => s
  | none => cs "None"

/-- The `open_port_detected` part of `_build_decision_tree` (the
`service_detected` and `vulnerability_found` parts are built but never read
by any code path).  `none` models absence of the port key. -/
def openPortSteps (port : Nat) : Option (List (List Char)) :=
  if port = 21 then some [cs "ftp_anonymous_check", cs "ftp_version_exploit"]
  else if port = 22 then some [cs "ssh_enumeration", cs "ssh_bruteforce"]
  else if port = 23 then some [cs "telnet_enumeration"]
  else if port = 25 then some [cs "smtp_enumeration", cs "smtp_user_enum"]
  else if port = 53 then some [cs "dns_enumeration", cs "zone_transfer"]
  else if port = 80 then some [cs "web_enumeration", cs "nikto_scan", cs "directory_bruteforce"]
  else if port = 443 then some [cs "web_enumeration", cs "ssl_scan", cs "directory_bruteforce"]
  else if port = 139 then some [cs "smb_enumeration", cs "smb_vuln_scan"]
  else if port = 445 then some [cs "smb_enumeration", cs "eternal_blue_check", cs "smb_bruteforce"]
  else if port = 1433 then some [cs "mssql_enumeration"]
  else if port = 3306 then some [cs "mysql_enumeration"]
  else if port = 3389 then some [cs "rdp_enumeration", cs "rdp_bruteforce"]
  else if port = 5432 then some [cs "postgresql_enumeration"]
  else if port = 8080 then some [cs "web_enumeration", cs "tomcat_check"]
  else none

/-- The numeric scores of `_build_priority_matrix`. -/
def priorityScore (sev : List Char) : Option Nat :=
  if sev = cs "critical" then some 10
  else if sev = cs "high" then some 7
  else if sev = cs "medium" then some 5
  else if sev = cs "low" then some 3
  else none

/-- The `vulnerable_versions` table of `_check_vulnerable_version`. -/
def vulnerableVersions : List (List Char × (List Char × List Char)) :=
  [(cs "vsftpd_2.3.4",
    (cs "vsftpd 2.3.4 backdoor vulnerability", cs "exploit/unix/ftp/vsftpd_234_backdoor")),
   (cs "Apache_2.4.49",
    (cs "Apache 2.4.49 Path Traversal (CVE-2021-41773)",
     cs "exploit/multi/http/apache_normalize_path_rce")),
   (cs "ProFTPD_1.3.5",
    (cs "ProFTPD 1.3.5 mod_copy RCE", cs "exploit/unix/ftp/proftpd_modcopy_exec"))]

/-- `DecisionEngine._check_vulnerable_version`: normalise
`service_version` with spaces replaced by underscores and scan the table for
a case-insensitive substring hit; returns `(description, exploit)`. -/
def check_vulnerable_version (service version : List Char) :
    Option (List Char × List Char) :=
  let check_key := replaceAll (cs " ") (cs "_") (service ++ cs "_" ++ version)
  (vulnerableVersions.find?
    (fun kv => containsSubstr (pyLower kv.1) (pyLower check_key))).map Prod.snd

/-- An entry of `parsed_data['open_ports']` as the analyzers read it (the
parsers always populate the `port`, `service` and `version` keys). -/
structure PortEntry where
  port : Nat
  service : List Char
  version : List Char
  deriving Repr, DecidableEq

/-- An entry of `parsed_data['vulnerabilities']` as `_analyze_nikto` reads it
(`description` and `severity` are read with `.get`, so they may be absent). -/
structure VulnEntry where
  description : Option (List Char)
  severity : Option (List Char)
  deriving Repr, DecidableEq

/-- An entry of `parsed_data['found_paths']` as `_analyze_gobuster` reads it
(`url` is used with the `in` operator, so the producing parser must set it). -/
structure PathEntry where
  url : List Char
  status_code : Option Nat
  deriving Repr, DecidableEq

/-- The keys of the `parsed_data` dict that the analyzers read.  `Option`
fields model key absence where the source uses `'k' in data` or `.get`;
boolean fields collapse Python truthiness checks. -/
structure ParsedData where
  open_ports : Option (List PortEntry)
  target : Option (List Char)
  exploit_success : Bool
  module : Option (List Char)
  injection_found : Bool
  parameter : Option (List Char)
  technique : Option (List Char)
  url : Option (List Char)
  databases : List (List Char)
  vulnerabilities : Option (List VulnEntry)
  found_paths : Option (List PathEntry)
  credentials_found : List HydraParser.CredEntry
  service : Option (List Char)
  deriving Repr, DecidableEq

/-- The finding dicts appended by the analyzers, one variant per dict shape. -/
inductive Finding where
  | open_port (port : Nat) (service version : List Char)
  | successful_exploit (module target : Option (List Char))
  | sql_injection (parameter technique : Option (List Char))
  | web_vulnerability (description : Option (List Char)) (severity : List Char)
  | interesting_directory (url : List Char) (status_code : Option Nat)
  | valid_credentials (username password : List Char) (service : Option (List Char))
  deriving Repr, DecidableEq

/-- The value of the `type` key of a finding dict. -/
def Finding.getType : Finding → List Char
  | .open_port .. => cs "open_port"
  | .successful_exploit .. => cs "successful_exploit"
  | .sql_injection .. => cs "sql_injection"
  | .web_vulnerability .. => cs "web_vulnerability"
  | .interesting_directory .. => cs "interesting_directory"
  | .valid_credentials .. => cs "valid_credentials"

/-- The recommendation dicts appended by the analyzers. -/
inductive Recommendation where
  | withPort (action : List Char) (port : Nat) (reason : List Char)
  | plain (action reason : List Char)
  | withPaths (action : List Char) (paths : List (List Char)) (reason : List Char)
  deriving Repr, DecidableEq

/-- A priority-action dict; every variant produced by the analyzers carries
`type`, `severity` and `description`, plus one shape-specific key. -/
structure PriorityAction where
  type_ : List Char
  severity : List Char
  description : List Char
  exploit : Option (List Char)
  commands : Option (List (List Char))
  credentials : Option HydraParser.CredEntry
  deriving Repr, DecidableEq

/-- The decision dict of `analyze_and_decide`; the wall-clock timestamp is an
explicit parameter of the embedding. -/
structure Decision where
  timestamp : List Char
  tool_type : List Char
  findings : List Finding
  recommendations : List Recommendation
  priority_actions : List PriorityAction
  next_commands : List (List Char)
  deriving Repr, DecidableEq

/-- `DecisionEngine._generate_nmap_followup`. -/
def generate_nmap_followup (data : ParsedData) : List (List Char) :=
  let target := (data.target).getD (cs "TARGET")
  let openPorts := (data.open_ports).getD []
  let web_ports := (openPorts.filter
    (fun p => p.port = 80 ∨ p.port = 443 ∨ p.port = 8080 ∨ p.port = 8443)).map (·.port)
  let webCmds := (web_ports.take 2).foldl (fun acc port =>
    let protocol := if port = 443 ∨ port = 8443 then cs "https" else cs "http"
    acc ++ [cs "nikto -h " ++ protocol ++ cs "://" ++ target ++ cs ":" ++ natToCs port,
            cs "gobuster dir -u " ++ protocol ++ cs "://" ++ target ++ cs ":" ++
              natToCs port ++ cs " -w /usr/share/wordlists/dirb/common.txt"]) []
  let smb_ports := (openPorts.filter (fun p => p.port = 139 ∨ p.port = 445)).map (·.port)
  if smb_ports ≠ [] then
    webCmds ++ [cs "enum4linux -a " ++ target, cs "smbclient -L //" ++ target ++ cs " -N"]
  else webCmds

/-- The body of the open-port loop of `_analyze_nmap`, threading the
decision dict. -/
def nmapPortStep (d : Decision) (p : PortEntry) : Decision :=
  let d := { d with findings := d.findings ++ [.open_port p.port p.service p.version] }
  let d :=
    match openPortSteps p.port with
    | some steps =>
      { d with recommendations := d.recommendations ++
          steps.map (fun step => Recommendation.withPort step p.port
            (cs "Port " ++ natToCs p.port ++ cs " (" ++ p.service ++ cs ") is open")) }
    | none => d
  match check_vulnerable_version p.service p.version with
  | some (descr, expl) =>
    { d with priority_actions := d.priority_actions ++
        [⟨cs "vulnerability", cs "high", descr, some expl, none, none⟩] }
  | none => d

/-- `DecisionEngine._analyze_nmap`. -/
def analyze_nmap (data : ParsedData) (d : Decision) : Decision :=
  let d :=
    match data.open_ports with
    | some ports => ports.foldl nmapPortStep d
    | none => d
  { d with next_commands := generate_nmap_followup data }

/-- `DecisionEngine._analyze_metasploit`. -/
def analyze_metasploit (data : ParsedData) (d : Decision) : Decision :=
  if data.exploit_success then
    { d with
      findings := d.findings ++ [.successful_exploit data.module data.target],
      recommendations := d.recommendations ++
        [.plain (cs "post_exploitation")
                (cs "Exploit successful, proceed with post-exploitation")],
      next_commands := [cs "getuid", cs "sysinfo", cs "ps",
                        cs "migrate -N explorer.exe", cs "hashdump"] }
  else
    { d with recommendations := d.recommendations ++
        [.plain (cs "try_alternative_exploit") (cs "Current exploit failed")] }

/-- `DecisionEngine._analyze_sqlmap`. -/
def analyze_sqlmap (data : ParsedData) (d : Decision) : Decision :=
  let d :=
    if data.injection_found then
      { d with
        findings := d.findings ++ [.sql_injection data.parameter data.technique],
        priority_actions := d.priority_actions ++
          [⟨cs "data_extraction", cs "critical",
            cs "SQL injection confirmed - extract data", none,
            some [cs "sqlmap -u " ++ pyShowOpt data.url ++ cs " --dbs",
                  cs "sqlmap -u " ++ pyShowOpt data.url ++ cs " --tables",
                  cs "sqlmap -u " ++ pyShowOpt data.url ++ cs " --dump"], none⟩] }
    else d
  if data.databases ≠ [] then
    { d with next_commands := (data.databases.take 3).map (fun db =>
        cs "sqlmap -u " ++ pyShowOpt data.url ++ cs " -D " ++ db ++ cs " --tables") }
  else d

/-- `DecisionEngine._analyze_nikto`. -/
def analyze_nikto (data : ParsedData) (d : Decision) : Decision :=
  let d :=
    match data.vulnerabilities with
    | some vulns =>
      { d with findings := d.findings ++ vulns.map (fun (v : VulnEntry) =>
          Finding.web_vulnerability v.description (v.severity.getD (cs "medium"))) }
    | none => d
  { d with
    recommendations := d.recommendations ++
      [Recommendation.plain (cs "directory_enumeration")
              (cs "Web server identified, enumerate directories")],
    next_commands :=
      [cs "gobuster dir -u " ++ (data.url).getD (cs "http://target") ++
         cs " -w /usr/share/wordlists/dirb/common.txt",
       cs "ffuf -u " ++ (data.url).getD (cs "http://target") ++
         cs "/FUZZ -w /usr/share/wordlists/dirb/common.txt"] }

/-- The path loop of `_analyze_gobuster`, accumulating the interesting urls
and the findings. -/
def gobusterPathStep (acc : List (List Char) × Decision) (p : PathEntry) :
    List (List Char) × Decision :=
  if containsSubstr (cs "/admin") p.url || containsSubstr (cs "/login") p.url ||
      containsSubstr (cs "/upload") p.url then
    (acc.1 ++ [p.url],
     { acc.2 with findings := acc.2.findings ++
        [.interesting_directory p.url p.status_code] })
  else acc

/-- `DecisionEngine._analyze_gobuster`. -/
def analyze_gobuster (data : ParsedData) (d : Decision) : Decision :=
  let (interesting, d) :=
    match data.found_paths with
    | some paths => paths.foldl gobusterPathStep ([], d)
    | none => ([], d)
  if interesting ≠ [] then
    { d with recommendations := d.recommendations ++
        [.withPaths (cs "investigate_paths") interesting
           (cs "Found potentially interesting directories")] }
  else d

/-- The username value of a credential dict (both shapes carry the key). -/
def credUsername : HydraParser.CredEntry → List Char
  | .full _ _ _ u _ => u
  | .loose u _ _ => u

/-- The password value of a credential dict. -/
def credPassword : HydraParser.CredEntry → List Char
  | .full _ _ _ _ p => p
  | .loose _ p _ => p

/-- `DecisionEngine._analyze_hydra`. -/
def analyze_hydra (data : ParsedData) (d : Decision) : Decision :=
  if data.credentials_found ≠ [] then
    data.credentials_found.foldl (fun d cred =>
      { d with
        findings := d.findings ++
          [.valid_credentials (credUsername cred) (credPassword cred) data.service],
        priority_actions := d.priority_actions ++
          [⟨cs "access_service", cs "high",
            cs "Use credentials to access " ++ pyShowOpt data.service,
            none, none, some cred⟩] }) d
  else d

/-- The numeric severity score of the severity matrix, extended to unknown
labels as the specification orders them (strictly below every listed score):
critical = 10 > high = 7 > medium = 5 > low = 3 > unknown. -/
def severityScore (sev : List Char) : Nat := (priorityScore sev).getD 0

/-- The sort key of `_prioritize_actions`:
`severity_order.get(x.get('severity', 'low'), 4)`. -/
def sevRank (sev : List Char) : Nat :=
  if sev = cs "critical" then 0
  else if sev = cs "high" then 1
  else if sev = cs "medium" then 2
  else if sev = cs "low" then 3
  else 4

/-- The ordering used by the sort in `_prioritize_actions`. -/
def paLE (a b : PriorityAction) : Prop := sevRank a.severity ≤ sevRank b.severity

instance : DecidableRel paLE := fun _ _ => Nat.decLe _ _

instance : IsTotal PriorityAction paLE := ⟨fun _ _ => Nat.le_total _ _⟩

instance : IsTrans PriorityAction paLE := ⟨fun _ _ _ => Nat.le_trans⟩

/-- `DecisionEngine._prioritize_actions`: Python `list.sort` is a stable
sort by this key, so it is embedded as the (stable) insertion sort on
`paLE`. -/
def prioritize_actions (d : Decision) : Decision :=
  { d with priority_actions := List.insertionSort paLE d.priority_actions }

/-- The per-tool dispatch of `analyze_and_decide`, before prioritisation. -/
def analyzeRaw (now : List Char) (data : ParsedData) (tool_type : List Char) :
    Decision :=
  let d : Decision := ⟨now, tool_type, [], [], [], []⟩
  if tool_type = cs "nmap" then analyze_nmap data d
  else if tool_type = cs "metasploit" then analyze_metasploit data d
  else if tool_type = cs "sqlmap" then analyze_sqlmap data d
  else if tool_type = cs "nikto" then analyze_nikto data d
  else if tool_type = cs "gobuster" then analyze_gobuster data d
  else if tool_type = cs "hydra" then analyze_hydra data d
  else d

/-- `DecisionEngine.analyze_and_decide` (the wall-clock timestamp is the
explicit `now` parameter). -/
def analyze_and_decide (now : List Char) (data : ParsedData)
    (tool_type : List Char) : Decision :=
  prioritize_actions (analyzeRaw now data tool_type)

/-- The `phase_progression` table of `suggest_next_phase`. -/
def phaseProgression : List (List Char × (List Char × List Char)) :=
  [(cs "reconnaissance",
    (cs "enumeration", cs "Basic recon complete, time to enumerate services")),
   (cs "enumeration",
    (cs "exploitation", cs "Services enumerated, ready to exploit vulnerabilities")),
   (cs "exploitation",
    (cs "post-exploitation", cs "Initial access gained, escalate privileges")),
   (cs "post-exploitation",
    (cs "lateral-movement", cs "System compromised, move laterally")),
   (cs "lateral-movement",
    (cs "reporting", cs "All targets compromised, document findings"))]

/-- `DecisionEngine.suggest_next_phase`. -/
def suggest_next_phase (current_phase : List Char) (findings : List Finding) :
    List Char × List Char :=
  let dflt := (current_phase, cs "Continue current phase")
  let has_open_ports := findings.any (fun f => f.getType = cs "open_port")
  let has_vulnerabilities := findings.any (fun f =>
    f.getType = cs "sql_injection" ∨ f.getType = cs "web_vulnerability")
  let has_access := findings.any (fun f =>
    f.getType = cs "successful_exploit" ∨ f.getType = cs "valid_credentials")
  if current_phase = cs "reconnaissance" ∧ has_open_ports then
    (phaseProgression.lookup (cs "reconnaissance")).getD dflt
  else if current_phase = cs "enumeration" ∧ has_vulnerabilities then
    (phaseProgression.lookup (cs "enumeration")).getD dflt
  else if current_phase = cs "exploitation" ∧ has_access then
    (phaseProgression.lookup (cs "exploitation")).getD dflt
  else
    match phaseProgression.lookup current_phase with
    | some pr => pr
    | none => dflt

end DecisionEngine

namespace AIEngine

/-- The backtick character (the inline-code punctuation stripped from the
Command section). -/
def btick : Char := Char.ofNat 96

/-- The section-header literals of `_parse_response`. -/
def hdrAnalysis : List Char := cs "**Analysis:**"

def hdrRecommended : List Char := cs "**Recommended Action:**"

def hdrCommand : List Char := cs "**Command:**"

def hdrExplanation : List Char := cs "**Explanation:**"

def hdrAltOptions : List Char := cs "**Alternative Options:**"

def hdrAlternatives : List Char := cs "**Alternatives:**"

/-- The value of the `current_section` local. -/
inductive RSection where
  | analysis
  | recommendation
  | command
  | explanation
  | alternatives
  deriving Repr, DecidableEq

/-- The structured result of `_parse_response` (the wall-clock timestamp is
an explicit parameter of the embedding). -/
structure ParsedResponse where
  raw_response : List Char
  analysis : List Char
  recommendation : List Char
  command : List Char
  explanation : List Char
  alternatives : List (List Char)
  timestamp : List Char
  deriving Repr, DecidableEq

/-- One iteration of the line loop of `_parse_response`. -/
def respStep (st : ParsedResponse × Option RSection) (rawLine : List Char) :
    ParsedResponse × Option RSection :=
  let (res, sec) := st
  let line := pyStrip rawLine
  if pyStartsWith hdrAnalysis line then
    ({ res with analysis := pyStrip (replaceAll hdrAnalysis [] line) }, some .analysis)
  else if pyStartsWith hdrRecommended line then
    ({ res with recommendation := pyStrip (replaceAll hdrRecommended [] line) },
     some .recommendation)
  else if pyStartsWith hdrCommand line then
    let cmd := pyStrip (replaceAll hdrCommand [] line)
    let cmd := pyStrip (replaceAll [btick] [] cmd)
    ({ res with command := cmd }, some .command)
  else if pyStartsWith hdrExplanation line then
    ({ res with explanation := pyStrip (replaceAll hdrExplanation [] line) },
     some .explanation)
  else if pyStartsWith hdrAltOptions line || pyStartsWith hdrAlternatives line then
    (res, some .alternatives)
  else
    match sec with
    | some s =>
      if line ≠ [] then
        match s with
        | .alternatives =>
          if pyStartsWith (cs "-") line || pyStartsWith (cs "•") line then
            ({ res with alternatives :=
                res.alternatives ++ [pyStrip (lstripSet (cs "-•") line)] }, sec)
          else (res, sec)
        | .analysis => ({ res with analysis := res.analysis ++ ' ' :: line }, sec)
        | .recommendation =>
          ({ res with recommendation := res.recommendation ++ ' ' :: line }, sec)
        | .command => ({ res with command := res.command ++ ' ' :: line }, sec)
        | .explanation =>
          ({ res with explanation := res.explanation ++ ' ' :: line }, sec)
      else (res, sec)
    | none => (res, sec)

/-- `AIEngine._parse_response`. -/
def parse_response (now response : List Char) : ParsedResponse :=
  ((splitOnCh '\n' response).foldl respStep
    (⟨response, [], [], [], [], [], now⟩, none)).1

end AIEngine

/-- JSON values, used to model the dynamically-typed dicts held and
serialised by `ContextManager` (`json.dump` followed by `json.load` is the
identity on such values, which is how the file layer is modelled). -/
inductive Json where
  | null
  | str (s : List Char)
  | num (n : Nat)
  | arr (elems : List Json)
  | obj (fields : List (List Char × Json))

namespace ContextManager

/-- Set a key on a JSON object (Python dict assignment; the state fields it
is applied to are always objects). -/
def jsonSet (j : Json) (key : List Char) (v : Json) : Json :=
  match j with
  | .obj fields =>
    if (fields.find? (fun kv => kv.1 = key)).isSome then
      .obj (fields.map (fun kv => if kv.1 = key then (kv.1, v) else kv))
    else .obj (fields ++ [(key, v)])
  | other => other

/-- `dict.get(key, default)` on a JSON object. -/
def jsonGet (j : Json) (key : List Char) (dflt : Json) : Json :=
  match j with
  | .obj fields =>
    match fields.find? (fun kv => kv.1 = key) with
    | some kv => kv.2
    | none => dflt
  | _ => dflt

/-- The mutable state of a `ContextManager`. -/
structure Ctx where
  target_info : Json
  discovered_services : Json
  discovered_vulnerabilities : Json
  executed_exploits : Json
  current_phase : Json

/-- The freshly-constructed `ContextManager`. -/
def initCtx : Ctx :=
  ⟨.obj [], .arr [], .arr [], .arr [], .str (cs "reconnaissance")⟩

/-- Append to a JSON array (Python `list.append`; the state fields it is
applied to are always arrays). -/
def jsonAppend (j : Json) (v : Json) : Json :=
  match j with
  | .arr elems => .arr (elems ++ [v])
  | other => other

/-- `ContextManager.update_target`. -/
def update_target (c : Ctx) (ip : List Char) (hostname : Option (List Char)) : Ctx :=
  let t := jsonSet c.target_info (cs "ip") (.str ip)
  let t :=
    match hostname with
    | some h => jsonSet t (cs "hostname") (.str h)
    | none => t
  { c with target_info := t }

/-- `ContextManager.add_service` (the timestamp is explicit). -/
def add_service (c : Ctx) (port : Nat) (service : List Char)
    (version : Option (List Char)) (now : List Char) : Ctx :=
  let vjson := match version with | some v => Json.str v | none => Json.null
  let entry := Json.obj [(cs "port", .num port), (cs "service", .str service),
                         (cs "version", vjson), (cs "timestamp", .str now)]
  { c with discovered_services := jsonAppend c.discovered_services entry }

/-- `ContextManager.add_vulnerability` (stamps the dict, then appends). -/
def add_vulnerability (c : Ctx) (vuln : Json) (now : List Char) : Ctx :=
  let entry := jsonSet vuln (cs "timestamp") (.str now)
  { c with discovered_vulnerabilities := jsonAppend c.discovered_vulnerabilities entry }

/-- `ContextManager.add_exploit`. -/
def add_exploit (c : Ctx) (exploit : Json) (now : List Char) : Ctx :=
  let entry := jsonSet exploit (cs "timestamp") (.str now)
  { c with executed_exploits := jsonAppend c.executed_exploits entry }

/-- The `valid_phases` list of `set_phase`. -/
def validPhases : List (List Char) :=
  [cs "reconnaissance", cs "enumeration", cs "exploitation",
   cs "post-exploitation", cs "lateral-movement", cs "privilege-escalation",
   cs "reporting"]

/-- `ContextManager.set_phase`: invalid names are silently ignored. -/
def set_phase (c : Ctx) (phase : List Char) : Ctx :=
  if validPhases.contains phase then { c with current_phase := .str phase } else c

/-- `ContextManager.get_context`. -/
def get_context (c : Ctx) : Json :=
  .obj [(cs "target", c.target_info),
        (cs "services", c.discovered_services),
        (cs "vulnerabilities", c.discovered_vulnerabilities),
        (cs "exploits", c.executed_exploits),
        (cs "phase", c.current_phase)]

/-- `ContextManager.save_context`: the saved file holds the JSON document of
`get_context` (writing and re-reading it is the identity at this level). -/
def save_context (c : Ctx) : Json := get_context c

/-- `ContextManager.load_context` applied to a loaded document. -/
def load_context (doc : Json) : Ctx :=
  { target_info := jsonGet doc (cs "target") (.obj []),
    discovered_services := jsonGet doc (cs "services") (.arr []),
    discovered_vulnerabilities := jsonGet doc (cs "vulnerabilities") (.arr []),
    executed_exploits := jsonGet doc (cs "exploits") (.arr []),
    current_phase := jsonGet doc (cs "phase") (.str (cs "reconnaissance")) }

/-- A session operation, as in the sequences the round-trip property
quantifies over. -/
inductive COp where
  | update_target (ip : List Char) (hostname : Option (List Char))
  | add_service (port : Nat) (service : List Char) (version : Option (List Char))
                (now : List Char)
  | add_vulnerability (vuln : Json) (now : List Char)
  | add_exploit (exploit : Json) (now : List Char)
  | set_phase (phase : List Char)

/-- Apply one operation. -/
def applyOp (c : Ctx) : COp → Ctx
  | .update_target ip hostname => update_target c ip hostname
  | .add_service port service version now => add_service c port service version now
  | .add_vulnerability vuln now => add_vulnerability c vuln now
  | .add_exploit exploit now => add_exploit c exploit now
  | .set_phase phase => set_phase c phase

/-- Apply a sequence of operations to the fresh manager. -/
def applyOps (ops : List COp) : Ctx := ops.foldl applyOp initCtx

end ContextManager

namespace ModelSelector

/-- The model backends (`FallbackModel` is defined in the source next to the
selector but, as proved below, never returned by `get_model`). -/
inductive ModelClass where
  | gpt
  | llama
  | mistral
  | qwen
  | gemini
  | claude
  | openaiCompat
  | fallback
  deriving Repr, DecidableEq

/-- The `MODEL_CLASSES` table in declaration order. -/
def MODEL_CLASSES : List (List Char × ModelClass) :=
  [(cs "gpt", .gpt), (cs "gpt-4", .gpt), (cs "gpt-5", .gpt), (cs "gpt-5.1", .gpt),
   (cs "gpt-3.5", .gpt),
   (cs "llama", .llama), (cs "llama2", .llama), (cs "llama3", .llama),
   (cs "mistral", .mistral), (cs "qwen", .qwen),
   (cs "gemini", .gemini), (cs "gemini-2", .gemini), (cs "gemini-3", .gemini),
   (cs "claude", .claude), (cs "sonnet", .claude), (cs "opus", .claude),
   (cs "openai", .openaiCompat), (cs "custom", .openaiCompat)]

/-- The environment facts the backend constructors depend on: configured
credentials and installed client packages. -/
structure Env where
  openai_key : Bool
  anthropic_key : Bool
  google_key : Bool
  openai_pkg : Bool
  anthropic_pkg : Bool
  google_pkg : Bool
  deriving Repr, DecidableEq

/-- Whether a backend constructor succeeds: the GPT, Claude and Gemini
constructors raise without a credential or client package; the local
LLaMA, Mistral, Qwen and OpenAI-compatible constructors never raise
(they only warn). -/
def ctorOk (env : Env) : ModelClass → Bool
  | .gpt => env.openai_key && env.openai_pkg
  | .claude => env.anthropic_key && env.anthropic_pkg
  | .gemini => env.google_key && env.google_pkg
  | _ => true

/-- The class-selection loop of `get_model`: the first table key occurring
in the lower-cased model type wins. -/
def selectClass (model_type : List Char) : Option ModelClass :=
  (MODEL_CLASSES.find? (fun kv => containsSubstr kv.1 (pyLower model_type))).map
    Prod.snd

/-- `ModelSelector.get_model`: unresolvable identifiers default to local
LLaMA, and a failed construction falls back to local LLaMA (whose
constructor always succeeds). -/
def get_model (env : Env) (model_type : List Char) : ModelClass :=
  let model_class :=
    match selectClass model_type with
    | some c => c
    | none => .llama
  if ctorOk env model_class then model_class else .llama

end ModelSelector

namespace ParserManager

/-- The keys of the `self.parsers` dict, in insertion order. -/
def parserKeys : List (List Char) :=
  [cs "nmap", cs "metasploit", cs "msfconsole", cs "sqlmap", cs "nikto",
   cs "gobuster", cs "hydra", cs "dirb", cs "dirbuster", cs "ffuf"]

/-- `ParserManager.detect_tool`. -/
def detect_tool (command : List Char) : Option (List Char) :=
  let command_lower := pyStrip (pyLower command)
  let first_word :=
    if command_lower = [] then []
    else match pySplitWS command_lower with
         | w :: _ => w
         | [] => []
  match parserKeys.find? (fun t => first_word = t ∨ pyEndsWith t first_word) with
  | some t => some t
  | none =>
    if containsSubstr (cs "msfconsole") command_lower ||
        containsSubstr (cs "metasploit") command_lower then
      some (cs "metasploit")
    else none

/-- What `ParserManager.parse` hands back.  The nmap and hydra parser
payloads are modelled in full above; the four remaining parsers all accept
`(output, command)` and their payloads are outside the scope of this
development, so only the routing to them is recorded. -/
inductive ToolResult where
  | hydraR (r : HydraParser.HydraResult)
  | otherR (tool : List Char)
  | generic (command output : List Char)
  deriving Repr, DecidableEq

/-- `ParserManager.parse`.  The manager calls `parser.parse(output, command)`
on every matched parser; `NmapParser.parse` declares only the single
`output` parameter, so on the nmap route the call raises
`TypeError` before any parsing happens.  All other routes return normally. -/
def parse (command output : List Char) : Except (List Char) ToolResult :=
  match detect_tool command with
  | some tool =>
    if tool = cs "nmap" then
      .error (cs "TypeError: parse() takes 2 positional arguments but 3 were given")
    else if tool = cs "hydra" then
      .ok (.hydraR (HydraParser.parse output command))
    else .ok (.otherR tool)
  | none => .ok (.generic command output)

end ParserManager

/-- `s` has a non-whitespace first character (or is empty). -/
def headNonWS (s : List Char) : Prop :=
  s.head?.all (fun c => !isPySpace c) = true

instance (s : List Char) : Decidable (headNonWS s) := by
  unfold headNonWS
  infer_instance

/-- `s` carries no leading or trailing whitespace, so `str.strip()` leaves
it unchanged. -/
def noEdgeWS (s : List Char) : Prop := headNonWS s ∧ headNonWS s.reverse

instance (s : List Char) : Decidable (noEdgeWS s) := by
  unfold noEdgeWS
  infer_instance

namespace AIEngine

/-- The bullet lines following the Alternative Options header, each on its
own line as `- item`. -/
def bulletsTail (alts : List (List Char)) : List Char :=
  (alts.map (fun alt => '\n' :: '-' :: ' ' :: alt)).flatten

/-- A backend reply containing all five section headers with the given
contents: an arbitrary preamble line, the four single-line sections, and a
bullet list after the Alternative Options header. -/
def mkSectionedReply (pre a r c e : List Char) (alts : List (List Char)) :
    List Char :=
  pre ++ '\n' ::
    ((hdrAnalysis ++ ' ' :: a) ++ '\n' ::
      ((hdrRecommended ++ ' ' :: r) ++ '\n' ::
        ((hdrCommand ++ ' ' :: c) ++ '\n' ::
          ((hdrExplanation ++ ' ' :: e) ++ '\n' ::
            (hdrAltOptions ++ bulletsTail alts)))))

/-- Known section content: non-empty single-line text with no edge
whitespace that does not itself contain its section header. -/
def sectionContent (hdr x : List Char) : Prop :=
  x ≠ [] ∧ ('\n' ∉ x) ∧ noEdgeWS x ∧ containsSubstr hdr x = false

instance (hdr x : List Char) : Decidable (sectionContent hdr x) := by
  unfold sectionContent
  infer_instance

/-- A line before any recognised header: it starts with none of the six
header literals. -/
def preambleLine (x : List Char) : Prop :=
  ('\n' ∉ x) ∧
  pyStartsWith hdrAnalysis (pyStrip x) = false ∧
  pyStartsWith hdrRecommended (pyStrip x) = false ∧
  pyStartsWith hdrCommand (pyStrip x) = false ∧
  pyStartsWith hdrExplanation (pyStrip x) = false ∧
  pyStartsWith hdrAltOptions (pyStrip x) = false ∧
  pyStartsWith hdrAlternatives (pyStrip x) = false

instance (x : List Char) : Decidable (preambleLine x) := by
  unfold preambleLine
  infer_instance

/-- Known alternative-item content: non-empty single-line text with no edge
whitespace. -/
def altContent (x : List Char) : Prop := x ≠ [] ∧ ('\n' ∉ x) ∧ noEdgeWS x

instance (x : List Char) : Decidable (altContent x) := by
  unfold altContent
  infer_instance

end AIEngine

namespace NmapParser

/-- The state column of a well-formed scanner row. -/
inductive RState where
  | opn
  | filtered
  | closed
  deriving Repr, DecidableEq

/-- The literal text of the state column. -/
def stateStr : RState → List Char
  | .opn => cs "open"
  | .filtered => cs "filtered"
  | .closed => cs "closed"

/-- One `port/protocol state service version` row of scanner output. -/
structure Row where
  port : List Char
  proto : List Char
  state : RState
  service : List Char
  version : List Char
  deriving Repr, DecidableEq

/-- Render a row as scanner output renders it (single spaces between
columns; the version column may be absent). -/
def renderRow (r : Row) : List Char :=
  r.port ++ '/' :: (r.proto ++ ' ' :: (stateStr r.state ++ ' ' ::
    (r.service ++ (if r.version = [] then [] else ' ' :: r.version))))

/-- A well-formed row: a digit port, a word protocol, a non-space service,
a trimmed single-line version column (possibly absent), and a row that is
not itself a host-report line. -/
def wfRow (r : Row) : Prop :=
  r.port ≠ [] ∧ r.port.all isDigitCh = true ∧
  r.proto ≠ [] ∧ r.proto.all isWordCh = true ∧
  r.service ≠ [] ∧ r.service.all isNonSpace = true ∧
  (r.version = [] ∨
    (headNonWS r.version ∧ headNonWS r.version.reverse ∧ ('\n' ∉ r.version))) ∧
  litDotPlusSearch hostLit (renderRow r) = none

instance (r : Row) : Decidable (wfRow r) := by
  unfold wfRow
  infer_instance

/-- A well-formed scan host name: non-empty single-line text with no
trailing whitespace. -/
def wfHost (h : List Char) : Prop :=
  h ≠ [] ∧ ('\n' ∉ h) ∧ headNonWS h.reverse

instance (h : List Char) : Decidable (wfHost h) := by
  unfold wfHost
  infer_instance

/-- A scan transcript: the host-report line followed by one line per row. -/
def mkScan (host : List Char) (rows : List Row) : List Char :=
  (hostLit ++ host) ++ (rows.map (fun r => '\n' :: renderRow r)).flatten

/-- The `port_info` dict a well-formed row parses to. -/
def toPortInfo (host : List Char) (r : Row) : PortInfo :=
  ⟨host, natOfDigits r.port, r.proto, stateStr r.state, r.service, r.version⟩

end NmapParser

namespace C4Data

open NmapParser

/-- Line-oriented scanner output for one host with one open ftp port running
vsftpd 2.3.4. -/
def lineOut : List Char :=
  cs "Nmap scan report for 192.168.1.10\n21/tcp open ftp vsftpd 2.3.4"

/-- The XML document for the same scan: the same host, port, state and
service, with the product and version split into attributes as the XML
format has them. -/
def xmlRoot : XElem :=
  .node (cs "nmaprun") []
    [.node (cs "host") []
      [.node (cs "address") [(cs "addrtype", cs "ipv4"), (cs "addr", cs "192.168.1.10")] [],
       .node (cs "ports") []
         [.node (cs "port") [(cs "protocol", cs "tcp"), (cs "portid", cs "21")]
           [.node (cs "state") [(cs "state", cs "open")] [],
            .node (cs "service")
              [(cs "name", cs "ftp"), (cs "product", cs "vsftpd"),
               (cs "version", cs "2.3.4")] []]]]]

end C4Data

namespace C6Data

/-- The credential-cracker output of the end-to-end scenario: one matched
credential line plus the terminal attack-finished marker. -/
def output : List Char :=
  cs "[22][ssh] host: 10.0.0.5 login: admin password: pass123\n[STATUS] attack finished for 10.0.0.5 (valid pair found)"

end C6Data

namespace C10Data

open DecisionEngine HydraParser in
/-- A concrete parsed-data dict for the witness. -/
def someData : DecisionEngine.ParsedData :=
  ⟨none, none, false, none, false, none, none, none, [], none, none, [], none⟩

end C10Data

namespace C8Data

open NmapParser

/-- A concrete scan host. -/
def host : List Char := cs "192.168.1.10"

/-- Concrete scan rows: two open, one filtered, one closed. -/
def rows : List Row :=
  [⟨cs "21", cs "tcp", .opn, cs "ftp", cs "vsftpd 2.3.4"⟩,
   ⟨cs "80", cs "tcp", .filtered, cs "http", []⟩,
   ⟨cs "443", cs "tcp", .closed, cs "https", []⟩,
   ⟨cs "22", cs "tcp", .opn, cs "ssh", cs "OpenSSH 7.2p2"⟩]

end C8Data

/-! ## Theorems -/

section StringLemmas

/-- `head?` of an append is the head of a non-empty left part. -/
theorem head?_append_left {α : Type} (l1 l2 : List α) (h : l1 ≠ []) :
    (l1 ++ l2).head? = l1.head? := by
  cases l1 with
  | nil => exact absurd rfl h
  | cons c t => rfl

/-- `dropWhile` is the identity when the head fails the predicate. -/
theorem dropWhile_eq_self_of_head (p : Char → Bool) (s : List Char)
    (h : s.head?.all (fun c => !p c) = true) : s.dropWhile p = s := by
  cases s with
  | nil => rfl
  | cons c t =>
    simp only [List.head?_cons, Option.all_some, Bool.not_eq_true'] at h
    simp [List.dropWhile, h]

/-- `str.strip()` is the identity on text with no edge whitespace. -/
theorem pyStrip_eq_self (s : List Char) (h : noEdgeWS s) : pyStrip s = s := by
  obtain ⟨h1, h2⟩ := h
  unfold pyStrip List.rdropWhile
  rw [dropWhile_eq_self_of_head _ _ h1, dropWhile_eq_self_of_head _ _ h2,
    List.reverse_reverse]

/-- Stripping eats a leading space. -/
theorem pyStrip_cons_space (s : List Char) : pyStrip (' ' :: s) = pyStrip s := by
  unfold pyStrip
  simp [List.dropWhile, isPySpace]

/-- The fuel of `replaceAllAux` is irrelevant as long as it covers the
length of the remaining text. -/
theorem replaceAllAux_fuel (pat rep : List Char) :
    ∀ (f1 : Nat) (s : List Char) (f2 : Nat), s.length ≤ f1 → s.length ≤ f2 →
      replaceAllAux pat rep f1 s = replaceAllAux pat rep f2 s := by
  intro f1
  induction f1 with
  | zero =>
    intro s f2 h1 _
    rw [List.length_eq_zero.mp (Nat.le_zero.mp h1)]
    cases f2 <;> rfl
  | succ n ih =>
    intro s f2 h1 h2
    cases s with
    | nil => cases f2 <;> rfl
    | cons c t =>
      cases f2 with
      | zero => simp at h2
      | succ m =>
        rw [replaceAllAux, replaceAllAux]
        by_cases hp : pat ≠ [] ∧ pat.isPrefixOf (c :: t) = true
        · rw [if_pos hp, if_pos hp]
          have hlen : ((c :: t).drop pat.length).length ≤ n := by
            have hpl : 0 < pat.length := List.length_pos.mpr hp.1
            simp only [List.length_drop, List.length_cons]
            simp only [List.length_cons] at h1
            omega
          have hlen2 : ((c :: t).drop pat.length).length ≤ m := by
            have hpl : 0 < pat.length := List.length_pos.mpr hp.1
            simp only [List.length_drop, List.length_cons]
            simp only [List.length_cons] at h2
            omega
          rw [ih _ m hlen hlen2]
        · rw [if_neg hp, if_neg hp]
          have hlen : t.length ≤ n := by
            simp only [List.length_cons] at h1
            omega
          have hlen2 : t.length ≤ m := by
            simp only [List.length_cons] at h2
            omega
          rw [ih _ m hlen hlen2]

/-- `str.replace` is the identity when the pattern does not occur. -/
theorem replaceAll_not_contains (pat rep s : List Char)
    (h : containsSubstr pat s = false) : replaceAll pat rep s = s := by
  unfold replaceAll
  suffices haux : ∀ (f : Nat) (s : List Char), s.length ≤ f →
      containsSubstr pat s = false → replaceAllAux pat rep f s = s by
    exact haux s.length s (Nat.le_refl _) h
  intro f
  induction f with
  | zero =>
    intro s h1 _
    rw [List.length_eq_zero.mp (Nat.le_zero.mp h1)]
    rfl
  | succ n ih =>
    intro s h1 hc
    cases s with
    | nil => rfl
    | cons c t =>
      rw [containsSubstr] at hc
      simp only [Bool.or_eq_false_iff] at hc
      rw [replaceAllAux, if_neg]
      · rw [ih t (by simp only [List.length_cons] at h1; omega) hc.2]
      · intro hcontra
        rw [hcontra.2] at hc
        exact absurd hc.1 (by simp)

/-- A list is a `isPrefixOf` of itself extended. -/
theorem isPrefixOf_append_self (l t : List Char) : l.isPrefixOf (l ++ t) = true := by
  rw [ List.isPrefixOf_iff_prefix]
  exact List.prefix_append l t

/-- `str.replace` rewrites a pattern occurrence at the front. -/
theorem replaceAll_head_hit (pat rep rest : List Char) (h : pat ≠ []) :
    replaceAll pat rep (pat ++ rest) = rep ++ replaceAll pat rep rest := by
  cases pat with
  | nil => exact absurd rfl h
  | cons p ps =>
    unfold replaceAll
    rw [List.cons_append,
      show (p :: (ps ++ rest)).length = (ps ++ rest).length + 1 from rfl,
      replaceAllAux, if_pos]
    · rw [show List.drop (p :: ps).length (p :: (ps ++ rest)) = rest from
        List.drop_left (p :: ps) rest]
      rw [replaceAllAux_fuel (p :: ps) rep (ps ++ rest).length rest rest.length
        (by simp) (Nat.le_refl _)]
    · refine ⟨by simp, ?_⟩
      have h2 := isPrefixOf_append_self (p :: ps) rest
      simp only [List.cons_append] at h2
      exact h2

/-- Splitting at the first separator. -/
theorem splitOnCh_append (sep : Char) (x y : List Char) (h : sep ∉ x) :
    splitOnCh sep (x ++ sep :: y) = x :: splitOnCh sep y := by
  induction x with
  | nil => simp [splitOnCh]
  | cons c t ih =>
    have hc : ¬ (c = sep) := fun hh => h (hh ▸ List.mem_cons_self c t)
    have ht : sep ∉ t := fun hh => h (List.mem_cons_of_mem c hh)
    rw [List.cons_append, splitOnCh, if_neg hc, ih ht]

/-- A separator-free string splits to itself. -/
theorem splitOnCh_no_sep (sep : Char) (x : List Char) (h : sep ∉ x) :
    splitOnCh sep x = [x] := by
  induction x with
  | nil => rfl
  | cons c t ih =>
    have hc : ¬ (c = sep) := fun hh => h (hh ▸ List.mem_cons_self c t)
    have ht : sep ∉ t := fun hh => h (List.mem_cons_of_mem c hh)
    rw [splitOnCh, if_neg hc, ih ht]

/-- No edge whitespace in `l1 ++ l2` given a clean head of `l1` and a clean
tail of `l2`. -/
theorem noEdgeWS_append (l1 l2 : List Char) (h1 : l1 ≠ []) (hh : headNonWS l1)
    (h2 : l2 ≠ []) (hl : headNonWS l2.reverse) : noEdgeWS (l1 ++ l2) := by
  constructor
  · unfold headNonWS
    rw [head?_append_left _ _ h1]
    exact hh
  · unfold headNonWS
    rw [List.reverse_append,
      head?_append_left _ _ (by simpa using h2)]
    exact hl

/-- A clean tail survives prefixing a space. -/
theorem headNonWS_rev_cons_space (x : List Char) (hx : x ≠ [])
    (h : headNonWS x.reverse) : headNonWS (' ' :: x).reverse := by
  unfold headNonWS
  rw [List.reverse_cons, head?_append_left _ _ (by simpa using hx)]
  exact h

end StringLemmas

section SortLemmas

open DecisionEngine

/-- The sort key of `_prioritize_actions` orders severities exactly
opposite to the numeric severity score. -/
theorem sevRank_le_iff_score (s t : List Char) :
    sevRank s ≤ sevRank t ↔ severityScore t ≤ severityScore s := by
  unfold sevRank severityScore priorityScore
  split_ifs <;> simp_all

/-- Elements of equal severity have equal sort keys. -/
theorem sevRank_congr {a b : PriorityAction} (h : a.severity = b.severity) :
    sevRank a.severity = sevRank b.severity := by rw [h]

/-- Inserting an element whose severity is `s` prepends it to the
`severity = s` sublist: every element it is inserted after has a strictly
smaller sort key, hence a different severity. -/
theorem filter_orderedInsert_pos (s : List Char) (x : PriorityAction)
    (l : List PriorityAction) (hx : x.severity = s) :
    (List.orderedInsert paLE x l).filter (fun a => decide (a.severity = s)) =
      x :: l.filter (fun a => decide (a.severity = s)) := by
  induction l with
  | nil => simp [List.orderedInsert, hx]
  | cons y ys ih =>
    by_cases hr : paLE x y
    · simp [List.orderedInsert, hr, hx]
    · have hy : ¬ (y.severity = s) := by
        intro hys
        exact hr (le_of_eq (sevRank_congr (hx.trans hys.symm)))
      simp [List.orderedInsert, hr, hy, ih]

/-- Inserting an element whose severity is not `s` leaves the
`severity = s` sublist unchanged. -/
theorem filter_orderedInsert_neg (s : List Char) (x : PriorityAction)
    (l : List PriorityAction) (hx : ¬ (x.severity = s)) :
    (List.orderedInsert paLE x l).filter (fun a => decide (a.severity = s)) =
      l.filter (fun a => decide (a.severity = s)) := by
  induction l with
  | nil => simp [List.orderedInsert, hx]
  | cons y ys ih =>
    by_cases hr : paLE x y
    · simp [List.orderedInsert, hr, hx]
    · by_cases hy : y.severity = s <;> simp [List.orderedInsert, hr, hy, hx, ih]

/-- The insertion sort of `_prioritize_actions` is stable: for every
severity label the sublist of actions carrying it is preserved verbatim. -/
theorem filter_insertionSort (s : List Char) (l : List PriorityAction) :
    (List.insertionSort paLE l).filter (fun a => decide (a.severity = s)) =
      l.filter (fun a => decide (a.severity = s)) := by
  induction l with
  | nil => rfl
  | cons x xs ih =>
    by_cases hx : x.severity = s
    · rw [List.insertionSort, filter_orderedInsert_pos s x _ hx, ih]
      simp [hx]
    · rw [List.insertionSort, filter_orderedInsert_neg s x _ hx, ih]
      simp [hx]

end SortLemmas

open DecisionEngine in
/-- C3: for every parsed tool result and tool identifier, the
`priority_actions` list of the decision returned by `analyze_and_decide`
is non-increasing in severity score (critical = 10 > high = 7 > medium = 5
> low = 3 > unknown lowest), and for every severity label the actions
carrying it appear in exactly their original discovery order (the order in
which the per-tool analyzer appended them, i.e. before prioritisation). -/
theorem C3_priority_actions_sorted_stable (now : List Char) (data : ParsedData)
    (tool_type : List Char) :
    ((analyze_and_decide now data tool_type).priority_actions.Pairwise
      (fun a b => severityScore b.severity ≤ severityScore a.severity)) ∧
    (∀ s : List Char,
      (analyze_and_decide now data tool_type).priority_actions.filter
          (fun a => decide (a.severity = s)) =
        (analyzeRaw now data tool_type).priority_actions.filter
          (fun a => decide (a.severity = s))) := by
  constructor
  · have hs := List.sorted_insertionSort paLE
      (analyzeRaw now data tool_type).priority_actions
    exact hs.imp (fun h => (sevRank_le_iff_score _ _).mp h)
  · intro s
    exact filter_insertionSort s (analyzeRaw now data tool_type).priority_actions

open DecisionEngine in
/-- C1 (counterexample): with phase `reconnaissance` and an empty findings
list (so in particular no open-port finding), `suggest_next_phase` does not
return the unchanged phase with reason "continue current phase": it falls
through to the progression table and proposes `enumeration`. -/
theorem C1_counterexample :
    suggest_next_phase (cs "reconnaissance") [] =
      (cs "enumeration", cs "Basic recon complete, time to enumerate services") ∧
    (cs "enumeration" ≠ cs "reconnaissance") := by
  constructor
  · rfl
  · decide

open DecisionEngine in
/-- C1 (amended): with phase `reconnaissance`, `suggest_next_phase` returns
`(enumeration, "Basic recon complete, time to enumerate services")` for
every findings list — whether or not an open-port finding is present; the
`(current phase, "Continue current phase")` result only arises for phases
outside the progression table. -/
theorem C1_recon_always_advances (findings : List Finding) :
    suggest_next_phase (cs "reconnaissance") findings =
      (cs "enumeration", cs "Basic recon complete, time to enumerate services") := by
  unfold suggest_next_phase
  cases hop : findings.any (fun f => f.getType = cs "open_port") <;>
    simp [hop] <;> rfl

open ParserManager in
/-- C2: routing an nmap command through `ParserManager.parse` raises
`TypeError` (the manager calls `parser.parse(output, command)` but
`NmapParser.parse` accepts only the output argument), contradicting the
claim that dispatch never raises. -/
theorem C2_nmap_route_raises :
    detect_tool (cs "nmap -sV 192.168.1.10") = some (cs "nmap") ∧
    parse (cs "nmap -sV 192.168.1.10") (cs "PORT STATE SERVICE") =
      .error (cs "TypeError: parse() takes 2 positional arguments but 3 were given") := by
  constructor <;> rfl

open NmapParser in
/-- C4: the two nmap parsing paths are not semantically equivalent.  On the
same scan (host 192.168.1.10, port 21 open, service ftp, vsftpd 2.3.4) the
line-oriented path records version "vsftpd 2.3.4" and emits the vsftpd
backdoor vulnerability finding, while the XML path records version "2.3.4"
(product and version are separate attributes) and emits no vulnerability:
its `_check_vulnerability` call receives only the version attribute, which
never contains the product-qualified table key. -/
theorem C4_paths_disagree :
    (parse C4Data.lineOut).vulnerabilities =
      [⟨21, cs "ftp", cs "vsftpd 2.3.4", cs "vsftpd 2.3.4 Backdoor", cs "critical",
        cs "N/A", cs "Backdoor command execution",
        cs "exploit/unix/ftp/vsftpd_234_backdoor"⟩] ∧
    (parse C4Data.lineOut).open_ports =
      [⟨cs "192.168.1.10", 21, cs "tcp", cs "open", cs "ftp", cs "vsftpd 2.3.4"⟩] ∧
    parse_xml C4Data.xmlRoot =
      .ok [some (cs "192.168.1.10")]
        [⟨some (cs "192.168.1.10"), none, 21, some (cs "tcp"), some (cs "open"),
          some (cs "ftp"), some (cs "vsftpd"), some (cs "2.3.4")⟩]
        [] [] := by
  refine ⟨by rfl, by rfl, by rfl⟩

open ContextManager in
/-- C5: for every sequence of update/add/set operations, saving and
re-loading the context reproduces an identical structured snapshot:
`get_context` after the round trip equals `get_context` before it. -/
theorem C5_save_load_roundtrip (ops : List COp) :
    get_context (load_context (save_context (applyOps ops))) =
      get_context (applyOps ops) := by
  rfl

open HydraParser in
/-- C6: on the scenario input, `HydraParser.parse` reports status
`success`, `valid_count = 1`, and exactly one credential — username
`admin`, password `pass123`, protocol `ssh` — with no extra credential
from the loose `valid`-keyword fallback path. -/
theorem C6_hydra_scenario :
    (parse C6Data.output []).status = cs "success" ∧
    (parse C6Data.output []).valid_count = 1 ∧
    (parse C6Data.output []).credentials_found =
      [.full (cs "22") (cs "ssh") (cs "10.0.0.5") (cs "admin") (cs "pass123")] := by
  refine ⟨by rfl, by rfl, by rfl⟩

open ModelSelector in
/-- C9 (counterexample): the identifier `gpt-claude` contains `claude`, yet
`get_model` resolves it to the GPT backend — the selection loop scans the
`MODEL_CLASSES` table in declaration order and `gpt` matches first — so
"any identifier containing claude resolves to the Claude-style backend" is
false. -/
theorem C9_counterexample :
    containsSubstr (cs "claude") (pyLower (cs "gpt-claude")) = true ∧
    get_model ⟨true, true, true, true, true, true⟩ (cs "gpt-claude") = .gpt ∧
    ModelClass.gpt ≠ ModelClass.claude := by
  refine ⟨by rfl, by rfl, by decide⟩

open ModelSelector in
/-- C9 (amended): `get_model` never raises and never returns the stub
`FallbackModel` (which exists in the source but is dead code): its result
is either the local LLaMA default (for unresolvable identifiers or failed
constructions — the LLaMA constructor always succeeds, even with no
backend reachable) or a backend whose table key occurs, case-insensitively,
in the identifier and whose constructor succeeded. -/
theorem C9_get_model_total_fallback (env : Env) (model_type : List Char) :
    get_model env model_type ≠ .fallback ∧
    ctorOk env (get_model env model_type) = true ∧
    (get_model env model_type = .llama ∨
      ∃ k, (k, get_model env model_type) ∈ MODEL_CLASSES ∧
        containsSubstr k (pyLower model_type) = true) := by
  have hall : ∀ kv ∈ MODEL_CLASSES, kv.2 ≠ ModelClass.fallback := by decide
  cases hsel : selectClass model_type with
  | none =>
    have hgm : get_model env model_type = ModelClass.llama := by
      unfold get_model
      rw [hsel]
      rfl
    rw [hgm]
    exact ⟨fun h => ModelClass.noConfusion h, rfl, Or.inl rfl⟩
  | some c =>
    have hfind : ∃ kv, MODEL_CLASSES.find?
        (fun kv => containsSubstr kv.1 (pyLower model_type)) = some kv ∧ kv.2 = c := by
      unfold selectClass at hsel
      cases hf : MODEL_CLASSES.find? (fun kv => containsSubstr kv.1 (pyLower model_type)) with
      | none => rw [hf] at hsel; simp at hsel
      | some kv =>
        rw [hf] at hsel
        simp at hsel
        exact ⟨kv, rfl, hsel⟩
    obtain ⟨kv, hf, hv⟩ := hfind
    have hkmem : kv ∈ MODEL_CLASSES := List.mem_of_find?_eq_some hf
    have hkpred : containsSubstr kv.1 (pyLower model_type) = true := by
      have := List.find?_some hf
      simpa using this
    have hcnot : c ≠ ModelClass.fallback := hv ▸ hall kv hkmem
    have hmem2 : (kv.1, c) ∈ MODEL_CLASSES := by
      have h0 : (kv.1, kv.2) ∈ MODEL_CLASSES := by simpa using hkmem
      rwa [hv] at h0
    have hgm : get_model env model_type =
        (if ctorOk env c = true then c else ModelClass.llama) := by
      unfold get_model
      rw [hsel]
    rw [hgm]
    by_cases hok : ctorOk env c = true
    · rw [if_pos hok]
      exact ⟨hcnot, hok, Or.inr ⟨kv.1, hmem2, hkpred⟩⟩
    · rw [if_neg hok]
      exact ⟨fun h => ModelClass.noConfusion h, rfl, Or.inl rfl⟩

open DecisionEngine in
/-- C10: for every parsed-data dict and every tool identifier outside the
six recognised ones, `analyze_and_decide` returns a decision whose
findings, recommendations, priority actions and next commands are all
empty — the unrecognised tool is silently skipped. -/
theorem C10_unknown_tool_empty (now : List Char) (data : ParsedData)
    (tool_type : List Char)
    (h : tool_type ∉ [cs "nmap", cs "metasploit", cs "sqlmap", cs "nikto",
                      cs "gobuster", cs "hydra"]) :
    analyze_and_decide now data tool_type =
      ⟨now, tool_type, [], [], [], []⟩ := by
  simp only [List.mem_cons, List.mem_singleton, not_or] at h
  obtain ⟨h1, h2, h3, h4, h5, h6, -⟩ := h
  unfold analyze_and_decide analyzeRaw prioritize_actions
  simp [h1, h2, h3, h4, h5, h6]

section C7Lemmas

open AIEngine

/-- A header starting with a non-space character is no prefix of a line
starting with a space. -/
theorem isPrefixOf_cons_space_false (hdr x : List Char) (hhdr : hdr ≠ [])
    (hhead : headNonWS hdr) : hdr.isPrefixOf (' ' :: x) = false := by
  cases hdr with
  | nil => exact absurd rfl hhdr
  | cons h t =>
    have hh : isPySpace h = false := by
      simpa [headNonWS] using hhead
    have hne : ¬ (h = ' ') := by
      intro he
      rw [he] at hh
      simp [isPySpace] at hh
    rw [List.isPrefixOf_cons₂]
    simp [hne]

/-- A header line `HDR content` survives `str.strip()` unchanged. -/
theorem sectionLine_strip (hdr x : List Char) (hhdr : hdr ≠ [])
    (hhead : headNonWS hdr) (hx : sectionContent hdr x) :
    pyStrip (hdr ++ ' ' :: x) = hdr ++ ' ' :: x := by
  obtain ⟨hne, _, hweg, _⟩ := hx
  exact pyStrip_eq_self _ (noEdgeWS_append _ _ hhdr hhead (by simp)
    (headNonWS_rev_cons_space x hne hweg.2))

/-- Removing the header from its own line and stripping yields exactly the
section content. -/
theorem sectionLine_extract (hdr x : List Char) (hhdr : hdr ≠ [])
    (hhead : headNonWS hdr) (hx : sectionContent hdr x) :
    pyStrip (replaceAll hdr [] (hdr ++ ' ' :: x)) = x := by
  obtain ⟨hne, _, hweg, hcon⟩ := hx
  have hc2 : containsSubstr hdr (' ' :: x) = false := by
    have e : containsSubstr hdr (' ' :: x) =
        (hdr.isPrefixOf (' ' :: x) || containsSubstr hdr x) := rfl
    rw [e, hcon, isPrefixOf_cons_space_false hdr x hhdr hhead]
    rfl
  rw [replaceAll_head_hit hdr [] (' ' :: x) hhdr,
    replaceAll_not_contains hdr [] (' ' :: x) hc2, List.nil_append,
    pyStrip_cons_space, pyStrip_eq_self x hweg]

/-- Processing the Analysis header line. -/
theorem respStep_analysisLine (res : ParsedResponse) (sec : Option RSection)
    (a : List Char) (ha : sectionContent hdrAnalysis a) :
    respStep (res, sec) (hdrAnalysis ++ ' ' :: a) =
      ({ res with analysis := a }, some RSection.analysis) := by
  have h1 := sectionLine_strip hdrAnalysis a (by decide) (by decide) ha
  have h2 := sectionLine_extract hdrAnalysis a (by decide) (by decide) ha
  have h3 : pyStartsWith hdrAnalysis (hdrAnalysis ++ ' ' :: a) = true :=
    isPrefixOf_append_self _ _
  simp only [respStep, h1, h3, if_true, h2]

/-- Processing the Recommended Action header line. -/
theorem respStep_recommendedLine (res : ParsedResponse) (sec : Option RSection)
    (r : List Char) (hr : sectionContent hdrRecommended r) :
    respStep (res, sec) (hdrRecommended ++ ' ' :: r) =
      ({ res with recommendation := r }, some RSection.recommendation) := by
  have h1 := sectionLine_strip hdrRecommended r (by decide) (by decide) hr
  have h2 := sectionLine_extract hdrRecommended r (by decide) (by decide) hr
  have h3 : pyStartsWith hdrRecommended (hdrRecommended ++ ' ' :: r) = true :=
    isPrefixOf_append_self _ _
  have f1 : pyStartsWith hdrAnalysis (hdrRecommended ++ ' ' :: r) = false := rfl
  simp only [respStep, h1, h3, f1, if_true, h2]
  rfl

/-- Processing the Command header line: backticks are stripped from the
extracted content. -/
theorem respStep_commandLine (res : ParsedResponse) (sec : Option RSection)
    (c : List Char) (hc : sectionContent hdrCommand c) :
    respStep (res, sec) (hdrCommand ++ ' ' :: c) =
      ({ res with command := pyStrip (replaceAll [btick] [] c) },
       some RSection.command) := by
  have h1 := sectionLine_strip hdrCommand c (by decide) (by decide) hc
  have h2 := sectionLine_extract hdrCommand c (by decide) (by decide) hc
  have h3 : pyStartsWith hdrCommand (hdrCommand ++ ' ' :: c) = true :=
    isPrefixOf_append_self _ _
  have f1 : pyStartsWith hdrAnalysis (hdrCommand ++ ' ' :: c) = false := rfl
  have f2 : pyStartsWith hdrRecommended (hdrCommand ++ ' ' :: c) = false := rfl
  simp only [respStep, h1, h3, f1, f2, if_true, h2]
  rfl

/-- Processing the Explanation header line. -/
theorem respStep_explanationLine (res : ParsedResponse) (sec : Option RSection)
    (e : List Char) (he : sectionContent hdrExplanation e) :
    respStep (res, sec) (hdrExplanation ++ ' ' :: e) =
      ({ res with explanation := e }, some RSection.explanation) := by
  have h1 := sectionLine_strip hdrExplanation e (by decide) (by decide) he
  have h2 := sectionLine_extract hdrExplanation e (by decide) (by decide) he
  have h3 : pyStartsWith hdrExplanation (hdrExplanation ++ ' ' :: e) = true :=
    isPrefixOf_append_self _ _
  have f1 : pyStartsWith hdrAnalysis (hdrExplanation ++ ' ' :: e) = false := rfl
  have f2 : pyStartsWith hdrRecommended (hdrExplanation ++ ' ' :: e) = false := rfl
  have f3 : pyStartsWith hdrCommand (hdrExplanation ++ ' ' :: e) = false := rfl
  simp only [respStep, h1, h3, f1, f2, f3, if_true, h2]
  rfl

/-- Processing the Alternative Options header line. -/
theorem respStep_altHeaderLine (res : ParsedResponse) (sec : Option RSection) :
    respStep (res, sec) hdrAltOptions = (res, some RSection.alternatives) := rfl

/-- Processing a line before any recognised header. -/
theorem respStep_preambleLine (res : ParsedResponse) (pre : List Char)
    (hp : preambleLine pre) : respStep (res, none) pre = (res, none) := by
  obtain ⟨-, p1, p2, p3, p4, p5, p6⟩ := hp
  simp only [respStep, p1, p2, p3, p4, p5, p6]
  rfl

/-- Processing a bullet line while the alternatives section is current. -/
theorem respStep_bulletLine (res : ParsedResponse) (alt : List Char)
    (hb : altContent alt) :
    respStep (res, some RSection.alternatives) ('-' :: ' ' :: alt) =
      ({ res with alternatives := res.alternatives ++ [alt] },
       some RSection.alternatives) := by
  obtain ⟨hne, _, hweg⟩ := hb
  have h1 : pyStrip ('-' :: ' ' :: alt) = '-' :: ' ' :: alt := by
    apply pyStrip_eq_self
    refine ⟨rfl, ?_⟩
    unfold headNonWS
    rw [show ('-' :: ' ' :: alt).reverse = alt.reverse ++ [' ', '-'] by simp,
      head?_append_left _ _ (by simpa using hne)]
    exact hweg.2
  have h2 : pyStrip (lstripSet (cs "-•") ('-' :: ' ' :: alt)) = alt := by
    rw [show lstripSet (cs "-•") ('-' :: ' ' :: alt) = ' ' :: alt from rfl,
      pyStrip_cons_space, pyStrip_eq_self alt hweg]
  simp only [respStep, h1, h2]
  rfl

/-- Folding the bullet lines appends exactly the alternative items. -/
theorem foldl_bullets (alts : List (List Char)) (res : ParsedResponse)
    (h : ∀ alt ∈ alts, altContent alt) :
    List.foldl respStep (res, some RSection.alternatives)
        (alts.map (fun alt => '-' :: ' ' :: alt)) =
      ({ res with alternatives := res.alternatives ++ alts },
       some RSection.alternatives) := by
  induction alts generalizing res with
  | nil => simp
  | cons alt rest ih =>
    rw [List.map_cons, List.foldl_cons,
      respStep_bulletLine res alt (h alt (List.mem_cons_self _ _)),
      ih _ (fun x hx => h x (List.mem_cons_of_mem _ hx))]
    simp

/-- A newline stays outside a header line built from newline-free parts. -/
theorem nl_not_mem_line (hdr x : List Char) (hh : '\n' ∉ hdr) (hx : '\n' ∉ x) :
    '\n' ∉ hdr ++ ' ' :: x := by
  intro hmem
  rcases List.mem_append.mp hmem with h | h
  · exact hh h
  · rcases List.mem_cons.mp h with h | h
    · exact absurd h (by decide)
    · exact hx h

/-- Splitting the Alternative Options header plus its bullet lines. -/
theorem splitSeg (alts : List (List Char)) (first : List Char)
    (hf : '\n' ∉ first) (ha : ∀ alt ∈ alts, '\n' ∉ alt) :
    splitOnCh '\n' (first ++ bulletsTail alts) =
      first :: alts.map (fun alt => '-' :: ' ' :: alt) := by
  induction alts generalizing first with
  | nil =>
    rw [show bulletsTail [] = [] from rfl, List.append_nil,
      splitOnCh_no_sep _ _ hf, List.map_nil]
  | cons alt rest ih =>
    have hnl : '\n' ∉ ('-' :: ' ' :: alt) := by
      intro hmem
      rcases List.mem_cons.mp hmem with h | h
      · exact absurd h (by decide)
      · rcases List.mem_cons.mp h with h | h
        · exact absurd h (by decide)
        · exact (ha alt (List.mem_cons_self _ _)) h
    have e : first ++ bulletsTail (alt :: rest) =
        first ++ '\n' :: (('-' :: ' ' :: alt) ++ bulletsTail rest) := rfl
    rw [e, splitOnCh_append _ _ _ hf,
      ih ('-' :: ' ' :: alt) hnl (fun x hx => ha x (List.mem_cons_of_mem _ hx)),
      List.map_cons]

/-- One step of the missing-Command invariant: a line that does not start
with the Command header neither writes the command field nor selects the
command section. -/
theorem respStep_command_inv (st : ParsedResponse × Option RSection)
    (l : List Char) (h1 : st.1.command = [])
    (h2 : st.2 ≠ some RSection.command)
    (hl : pyStartsWith hdrCommand (pyStrip l) = false) :
    (respStep st l).1.command = [] ∧
    (respStep st l).2 ≠ some RSection.command := by
  obtain ⟨res, sec⟩ := st
  cases sec with
  | none =>
    simp only [respStep]
    split_ifs <;> simp_all
  | some s =>
    cases s <;> simp only [respStep] <;> split_ifs <;> simp_all

/-- The missing-Command invariant over a whole line list. -/
theorem foldl_command_inv (lines : List (List Char))
    (st : ParsedResponse × Option RSection) (h1 : st.1.command = [])
    (h2 : st.2 ≠ some RSection.command)
    (hl : ∀ l ∈ lines, pyStartsWith hdrCommand (pyStrip l) = false) :
    (List.foldl respStep st lines).1.command = [] ∧
    (List.foldl respStep st lines).2 ≠ some RSection.command := by
  induction lines generalizing st with
  | nil => exact ⟨h1, h2⟩
  | cons l rest ih =>
    rw [List.foldl_cons]
    obtain ⟨g1, g2⟩ :=
      respStep_command_inv st l h1 h2 (hl l (List.mem_cons_self _ _))
    exact ih _ g1 g2 (fun x hx => hl x (List.mem_cons_of_mem _ hx))

end C7Lemmas

open AIEngine in
/-- C7: (i) on a backend reply containing all five section headers with
known single-line contents (after an arbitrary dropped preamble line), each
structured field of `_parse_response` equals exactly its section content —
trimmed, with backticks stripped from the Command field and the bullet
lines collected in order as the alternatives — while the raw text and
timestamp are preserved; and (ii) on every reply with no line starting
with the Command header, the command field is the empty string (the parse
is a total function, so no exception arises either way). -/
theorem C7_parse_response_sections (now : List Char) :
    (∀ pre a r c e alts, preambleLine pre →
      sectionContent hdrAnalysis a →
      sectionContent hdrRecommended r →
      sectionContent hdrCommand c →
      sectionContent hdrExplanation e →
      (∀ alt ∈ alts, altContent alt) →
      parse_response now (mkSectionedReply pre a r c e alts) =
        ⟨mkSectionedReply pre a r c e alts, a, r,
         pyStrip (replaceAll [btick] [] c), e, alts, now⟩) ∧
    (∀ response,
      (∀ l ∈ splitOnCh '\n' response,
        pyStartsWith hdrCommand (pyStrip l) = false) →
      (parse_response now response).command = []) := by
  constructor
  · intro pre a r c e alts hpre ha hr hc he halts
    have hlines : splitOnCh '\n' (mkSectionedReply pre a r c e alts) =
        pre :: (hdrAnalysis ++ ' ' :: a) :: (hdrRecommended ++ ' ' :: r) ::
        (hdrCommand ++ ' ' :: c) :: (hdrExplanation ++ ' ' :: e) ::
        hdrAltOptions :: alts.map (fun alt => '-' :: ' ' :: alt) := by
      unfold mkSectionedReply
      rw [splitOnCh_append '\n' pre _ hpre.1,
        splitOnCh_append '\n' (hdrAnalysis ++ ' ' :: a) _
          (nl_not_mem_line _ _ (by decide) ha.2.1),
        splitOnCh_append '\n' (hdrRecommended ++ ' ' :: r) _
          (nl_not_mem_line _ _ (by decide) hr.2.1),
        splitOnCh_append '\n' (hdrCommand ++ ' ' :: c) _
          (nl_not_mem_line _ _ (by decide) hc.2.1),
        splitOnCh_append '\n' (hdrExplanation ++ ' ' :: e) _
          (nl_not_mem_line _ _ (by decide) he.2.1),
        splitSeg alts hdrAltOptions (by decide)
          (fun x hx => (halts x hx).2.1)]
    unfold parse_response
    rw [hlines]
    simp only [List.foldl_cons]
    rw [respStep_preambleLine _ pre hpre,
      respStep_analysisLine _ _ a ha,
      respStep_recommendedLine _ _ r hr,
      respStep_commandLine _ _ c hc,
      respStep_explanationLine _ _ e he,
      respStep_altHeaderLine,
      foldl_bullets alts _ halts]
    simp
  · intro response h
    unfold parse_response
    exact (foldl_command_inv (splitOnCh '\n' response)
      (⟨response, [], [], [], [], [], now⟩, none) rfl (by simp) h).1

open AIEngine in
/-- Witness for C7 at a concrete five-section reply (with a backticked
command and two bullet alternatives) and a concrete Command-free reply. -/
theorem C7_witness :
    parse_response (cs "T")
        (mkSectionedReply (cs "intro text") (cs "port 21 open") (cs "enumerate ftp")
          (cs "`ftp 10.0.0.1`") (cs "anonymous login may work")
          [cs "use nmap scripts", cs "try hydra"]) =
      ⟨mkSectionedReply (cs "intro text") (cs "port 21 open") (cs "enumerate ftp")
          (cs "`ftp 10.0.0.1`") (cs "anonymous login may work")
          [cs "use nmap scripts", cs "try hydra"],
       cs "port 21 open", cs "enumerate ftp", cs "ftp 10.0.0.1",
       cs "anonymous login may work",
       [cs "use nmap scripts", cs "try hydra"], cs "T"⟩ ∧
    (parse_response (cs "T") (cs "**Analysis:** a\nno command here")).command = [] := by
  constructor
  · rw [(C7_parse_response_sections (cs "T")).1 (cs "intro text") (cs "port 21 open")
      (cs "enumerate ftp") (cs "`ftp 10.0.0.1`") (cs "anonymous login may work")
      [cs "use nmap scripts", cs "try hydra"]
      (by decide) (by decide) (by decide) (by decide) (by decide) (by decide)]
    rfl
  · exact (C7_parse_response_sections (cs "T")).2
      (cs "**Analysis:** a\nno command here") (by decide)

section C8Lemmas

open NmapParser

/-- `takeWhile`/`dropWhile` through an append whose left part satisfies the
predicate everywhere and whose right part opens with a failing character. -/
theorem takeWhile_append_all (p : Char → Bool) (xs ys : List Char)
    (hxs : xs.all p = true) (hys : ys.head?.all (fun c => !p c) = true) :
    (xs ++ ys).takeWhile p = xs ∧ (xs ++ ys).dropWhile p = ys := by
  induction xs with
  | nil =>
    refine ⟨?_, dropWhile_eq_self_of_head p ys hys⟩
    cases ys with
    | nil => rfl
    | cons c t =>
      simp only [List.head?_cons, Option.all_some, Bool.not_eq_true'] at hys
      simp [List.takeWhile, hys]
  | cons x xt ih =>
    simp only [List.all_cons, Bool.and_eq_true] at hxs
    obtain ⟨h1, h2⟩ := ih hxs.2
    refine ⟨?_, ?_⟩
    · rw [List.cons_append, List.takeWhile_cons, if_pos hxs.1, h1]
    · rw [List.cons_append, List.dropWhile_cons, if_pos hxs.1, h2]

/-- `span` through such an append. -/
theorem span_append_all (p : Char → Bool) (xs ys : List Char)
    (hxs : xs.all p = true) (hys : ys.head?.all (fun c => !p c) = true) :
    (xs ++ ys).span p = (xs, ys) := by
  obtain ⟨h1, h2⟩ := takeWhile_append_all p xs ys hxs hys
  rw [List.span_eq_take_drop, h1, h2]

/-- A head predicate survives appending on the right. -/
theorem head_all_append (p : Char → Bool) (l1 l2 : List Char) (h1 : l1 ≠ [])
    (h : l1.head?.all p = true) : (l1 ++ l2).head?.all p = true := by
  rw [head?_append_left _ _ h1]
  exact h

/-- The port pattern on a rendered row with no version column. -/
theorem portMatchHere_shape_noversion (port proto stLit service : List Char)
    (hp1 : port ≠ []) (hp2 : port.all isDigitCh = true)
    (hpr1 : proto ≠ []) (hpr2 : proto.all isWordCh = true)
    (hst1 : stLit ≠ []) (hst2 : stLit.all isWordCh = true)
    (hsthead : stLit.head?.all (fun c => !isPySpace c) = true)
    (hs1 : service ≠ []) (hs2 : service.all isNonSpace = true) :
    portMatchHere (port ++ '/' :: (proto ++ ' ' :: (stLit ++ ' ' :: (service ++ [])))) =
      some ⟨port, proto, stLit, service, none⟩ := by
  have hsvhead : service.head?.all (fun c => !isPySpace c) = true := by
    cases service with
    | nil => rfl
    | cons c t =>
      simp only [List.all_cons, Bool.and_eq_true] at hs2
      simpa [isNonSpace] using hs2.1
  have e1 : (port ++ '/' :: (proto ++ ' ' :: (stLit ++ ' ' :: (service ++ [])))).span
      isDigitCh = (port, '/' :: (proto ++ ' ' :: (stLit ++ ' ' :: (service ++ [])))) :=
    span_append_all _ _ _ hp2 rfl
  have e2 : (proto ++ ' ' :: (stLit ++ ' ' :: (service ++ []))).span isWordCh =
      (proto, ' ' :: (stLit ++ ' ' :: (service ++ []))) :=
    span_append_all _ _ _ hpr2 rfl
  have e3 : (' ' :: (stLit ++ ' ' :: (service ++ []))).span isPySpace =
      ([' '], stLit ++ ' ' :: (service ++ [])) :=
    span_append_all isPySpace [' '] _ rfl
      (head_all_append _ _ _ hst1 hsthead)
  have e4 : (stLit ++ ' ' :: (service ++ [])).span isWordCh =
      (stLit, ' ' :: (service ++ [])) :=
    span_append_all _ _ _ hst2 rfl
  have e5 : (' ' :: (service ++ [])).span isPySpace = ([' '], service ++ []) :=
    span_append_all isPySpace [' '] _ rfl
      (head_all_append _ _ _ hs1 hsvhead)
  have e6 : (service ++ ([] : List Char)).span isNonSpace = (service, []) :=
    span_append_all _ _ _ hs2 rfl
  simp only [portMatchHere, e1, e2, e3, e4, e5, e6]
  simp [hp1, hpr1, hst1, hs1]

/-- The port pattern on a rendered row with a version column. -/
theorem portMatchHere_shape_version (port proto stLit service v : List Char)
    (hp1 : port ≠ []) (hp2 : port.all isDigitCh = true)
    (hpr1 : proto ≠ []) (hpr2 : proto.all isWordCh = true)
    (hst1 : stLit ≠ []) (hst2 : stLit.all isWordCh = true)
    (hsthead : stLit.head?.all (fun c => !isPySpace c) = true)
    (hs1 : service ≠ []) (hs2 : service.all isNonSpace = true)
    (hv1 : v ≠ []) (hvhead : v.head?.all (fun c => !isPySpace c) = true) :
    portMatchHere (port ++ '/' :: (proto ++ ' ' :: (stLit ++ ' ' ::
        (service ++ ' ' :: v)))) =
      some ⟨port, proto, stLit, service, some v⟩ := by
  have hsvhead : service.head?.all (fun c => !isPySpace c) = true := by
    cases service with
    | nil => rfl
    | cons c t =>
      simp only [List.all_cons, Bool.and_eq_true] at hs2
      simpa [isNonSpace] using hs2.1
  have e1 : (port ++ '/' :: (proto ++ ' ' :: (stLit ++ ' ' :: (service ++ ' ' :: v)))).span
      isDigitCh =
      (port, '/' :: (proto ++ ' ' :: (stLit ++ ' ' :: (service ++ ' ' :: v)))) :=
    span_append_all _ _ _ hp2 rfl
  have e2 : (proto ++ ' ' :: (stLit ++ ' ' :: (service ++ ' ' :: v))).span isWordCh =
      (proto, ' ' :: (stLit ++ ' ' :: (service ++ ' ' :: v))) :=
    span_append_all _ _ _ hpr2 rfl
  have e3 : (' ' :: (stLit ++ ' ' :: (service ++ ' ' :: v))).span isPySpace =
      ([' '], stLit ++ ' ' :: (service ++ ' ' :: v)) :=
    span_append_all isPySpace [' '] _ rfl
      (head_all_append _ _ _ hst1 hsthead)
  have e4 : (stLit ++ ' ' :: (service ++ ' ' :: v)).span isWordCh =
      (stLit, ' ' :: (service ++ ' ' :: v)) :=
    span_append_all _ _ _ hst2 rfl
  have e5 : (' ' :: (service ++ ' ' :: v)).span isPySpace =
      ([' '], service ++ ' ' :: v) :=
    span_append_all isPySpace [' '] _ rfl
      (head_all_append _ _ _ hs1 hsvhead)
  have e6 : (service ++ ' ' :: v).span isNonSpace = (service, ' ' :: v) :=
    span_append_all _ _ _ hs2 rfl
  have e7 : (' ' :: v).span isPySpace = ([' '], v) :=
    span_append_all isPySpace [' '] v rfl hvhead
  simp only [portMatchHere, e1, e2, e3, e4, e5, e6, e7]
  simp [hp1, hpr1, hst1, hs1, hv1]

/-- A matched start position makes `portSearch` return that match. -/
theorem portSearch_of_matchHere (s : List Char) (g : PortGroups)
    (hne : s ≠ []) (h : portMatchHere s = some g) : portSearch s = some g := by
  cases s with
  | nil => exact absurd rfl hne
  | cons c t => rw [portSearch, h]

/-- A rendered row is never the empty line. -/
theorem renderRow_ne_nil (r : Row) (hp : r.port ≠ []) : renderRow r ≠ [] := by
  cases hport : r.port with
  | nil => exact absurd hport hp
  | cons p ps => simp [renderRow, hport]

/-- The port pattern extracts exactly the columns of a well-formed row. -/
theorem portSearch_render (r : Row) (hwf : wfRow r) :
    portSearch (renderRow r) =
      some ⟨r.port, r.proto, stateStr r.state, r.service,
        if r.version = [] then none else some r.version⟩ := by
  obtain ⟨hp1, hp2, hpr1, hpr2, hs1, hs2, hv, -⟩ := hwf
  apply portSearch_of_matchHere _ _ (renderRow_ne_nil r hp1)
  have hst1 : stateStr r.state ≠ [] := by cases r.state <;> decide
  have hst2 : (stateStr r.state).all isWordCh = true := by cases r.state <;> decide
  have hsthead : (stateStr r.state).head?.all (fun c => !isPySpace c) = true := by
    cases r.state <;> decide
  by_cases hv0 : r.version = []
  · rw [show renderRow r = r.port ++ '/' :: (r.proto ++ ' ' ::
        (stateStr r.state ++ ' ' :: (r.service ++ []))) from by
      simp [renderRow, hv0]]
    rw [if_pos hv0]
    exact portMatchHere_shape_noversion _ _ _ _ hp1 hp2 hpr1 hpr2 hst1 hst2
      hsthead hs1 hs2
  · have hvv : headNonWS r.version ∧ headNonWS r.version.reverse ∧ ('\n' ∉ r.version) := by
      rcases hv with h | h
      · exact absurd h hv0
      · exact h
    rw [show renderRow r = r.port ++ '/' :: (r.proto ++ ' ' ::
        (stateStr r.state ++ ' ' :: (r.service ++ ' ' :: r.version))) from by
      simp [renderRow, hv0]]
    rw [if_neg hv0]
    exact portMatchHere_shape_version _ _ _ _ _ hp1 hp2 hpr1 hpr2 hst1 hst2
      hsthead hs1 hs2 hv0 hvv.1

/-- Digits are not whitespace. -/
theorem digit_not_space (c : Char) (h : isDigitCh c = true) : isPySpace c = false := by
  cases hsp : isPySpace c
  · rfl
  · exfalso
    unfold isPySpace at hsp
    simp only [Bool.or_eq_true, decide_eq_true_eq] at hsp
    rcases hsp with ((((h1 | h1) | h1) | h1) | h1) | h1 <;> subst h1 <;>
      exact absurd h (by decide)

/-- `head?` of a reversed append comes from the right part. -/
theorem head_rev_append (x y : List Char) (hy : y ≠ []) :
    (x ++ y).reverse.head? = y.reverse.head? := by
  rw [List.reverse_append, head?_append_left _ _ (by simpa using hy)]

/-- `head?` of a reversed cons with a non-empty tail. -/
theorem head_rev_cons (c : Char) (y : List Char) (hy : y ≠ []) :
    (c :: y).reverse.head? = y.reverse.head? := by
  rw [show (c :: y) = [c] ++ y from rfl]
  exact head_rev_append [c] y hy

/-- `all` restricted to the head. -/
theorem all_to_head (p : Char → Bool) (l : List Char) (h : l.all p = true) :
    l.head?.all p = true := by
  cases l with
  | nil => rfl
  | cons c t =>
    simp only [List.all_cons, Bool.and_eq_true] at h
    simpa using h.1

/-- A rendered well-formed row has no edge whitespace, so `str.strip()`
leaves it unchanged. -/
theorem renderRow_noEdgeWS (r : Row) (hwf : wfRow r) : noEdgeWS (renderRow r) := by
  obtain ⟨hp1, hp2, hpr1, hpr2, hs1, hs2, hv, -⟩ := hwf
  constructor
  · unfold headNonWS renderRow
    rw [head?_append_left _ _ hp1]
    cases hport : r.port with
    | nil => exact absurd hport hp1
    | cons p ps =>
      rw [hport] at hp2
      simp only [List.all_cons, Bool.and_eq_true] at hp2
      simp [digit_not_space p hp2.1]
  · unfold headNonWS renderRow
    by_cases hv0 : r.version = []
    · rw [if_pos hv0,
        head_rev_append _ _ (by simp),
        head_rev_cons _ _ (by simp),
        head_rev_append _ _ (by simp),
        head_rev_cons _ _ (by simp [hs1]),
        head_rev_append _ _ (by simp [hs1]),
        head_rev_cons _ _ (by simp [hs1]),
        show r.service ++ ([] : List Char) = r.service from List.append_nil _]
      have hall : r.service.reverse.all isNonSpace = true := by
        rw [List.all_reverse]
        exact hs2
      exact all_to_head _ _ hall
    · have hvv : headNonWS r.version ∧ headNonWS r.version.reverse ∧ ('\n' ∉ r.version) := by
        rcases hv with h | h
        · exact absurd h hv0
        · exact h
      rw [if_neg hv0,
        head_rev_append _ _ (by simp),
        head_rev_cons _ _ (by simp),
        head_rev_append _ _ (by simp),
        head_rev_cons _ _ (by simp),
        head_rev_append _ _ (by simp),
        head_rev_cons _ _ (by simp [hv0]),
        head_rev_append _ _ (by simp [hv0]),
        head_rev_cons _ _ hv0]
      exact hvv.2.1

/-- A rendered well-formed row contains no newline. -/
theorem nl_not_mem_render (r : Row) (hwf : wfRow r) : '\n' ∉ renderRow r := by
  obtain ⟨hp1, hp2, hpr1, hpr2, hs1, hs2, hv, -⟩ := hwf
  intro hmem
  unfold renderRow at hmem
  rcases List.mem_append.mp hmem with h | h
  · exact absurd (List.all_eq_true.mp hp2 _ h) (by decide)
  · rcases List.mem_cons.mp h with h | h
    · exact absurd h (by decide)
    · rcases List.mem_append.mp h with h | h
      · exact absurd (List.all_eq_true.mp hpr2 _ h) (by decide)
      · rcases List.mem_cons.mp h with h | h
        · exact absurd h (by decide)
        · rcases List.mem_append.mp h with h | h
          · revert h
            cases r.state <;> decide
          · rcases List.mem_cons.mp h with h | h
            · exact absurd h (by decide)
            · rcases List.mem_append.mp h with h | h
              · exact absurd (List.all_eq_true.mp hs2 _ h) (by decide)
              · by_cases hv0 : r.version = []
                · rw [if_pos hv0] at h
                  exact absurd h (List.not_mem_nil _)
                · rw [if_neg hv0] at h
                  rcases List.mem_cons.mp h with h | h
                  · exact absurd h (by decide)
                  · rcases hv with hx | hx
                    · exact absurd hx hv0
                    · exact hx.2.2 h

/-- Splitting a first line followed by newline-prefixed pieces. -/
theorem splitJoin (pieces : List (List Char)) (first : List Char)
    (hf : '\n' ∉ first) (hp : ∀ x ∈ pieces, '\n' ∉ x) :
    splitOnCh '\n' (first ++ (pieces.map (fun x => '\n' :: x)).flatten) =
      first :: pieces := by
  induction pieces generalizing first with
  | nil =>
    rw [List.map_nil, show (List.flatten ([] : List (List Char))) = [] from rfl,
      List.append_nil, splitOnCh_no_sep _ _ hf]
  | cons x rest ih =>
    have e : first ++ ((List.map (fun x => '\n' :: x) (x :: rest)).flatten) =
        first ++ '\n' :: (x ++ (List.map (fun x => '\n' :: x) rest).flatten) := rfl
    rw [e, splitOnCh_append _ _ _ hf, ih x (hp x (List.mem_cons_self _ _))
      (fun y hy => hp y (List.mem_cons_of_mem _ hy))]

/-- `re.search` for a `LITERAL(.+)` pattern succeeds at an initial literal
occurrence with a non-empty remainder. -/
theorem litDotPlusSearch_initial (lit rest : List Char) (hl : lit ≠ [])
    (hr : rest ≠ []) : litDotPlusSearch lit (lit ++ rest) = some rest := by
  cases lit with
  | nil => exact absurd rfl hl
  | cons c t =>
    have hdrop : List.drop (c :: t).length (c :: (t ++ rest)) = rest :=
      List.drop_left (c :: t) rest
    rw [List.cons_append, litDotPlusSearch, if_pos, hdrop]
    constructor
    · have h2 := isPrefixOf_append_self (c :: t) rest
      simp only [List.cons_append] at h2
      exact h2
    · rw [hdrop]
      exact hr

/-- Processing the host-report line from the initial state. -/
theorem stepLine_hostLine (host : List Char) (hh : wfHost host) :
    stepLine initState (hostLit ++ host) =
      ⟨some host, [host], [], [], [], [], []⟩ := by
  obtain ⟨h1, h2, h3⟩ := hh
  have hstrip : pyStrip (hostLit ++ host) = hostLit ++ host :=
    pyStrip_eq_self _ (noEdgeWS_append hostLit host (by decide) (by decide) h1 h3)
  have hsearch : litDotPlusSearch hostLit (hostLit ++ host) = some host :=
    litDotPlusSearch_initial hostLit host (by decide) h1
  simp only [stepLine, hstrip, hsearch]
  rfl

/-- Processing a well-formed row line: the row lands in exactly the bucket
named by its state column, the current host is unchanged, and no other
bucket grows. -/
theorem stepLine_row_proj (st : NmapParser.LoopState) (host : List Char) (r : Row)
    (hch : st.current_host = some host) (hwf : wfRow r) :
    (stepLine st (renderRow r)).current_host = some host ∧
    (stepLine st (renderRow r)).open_ports =
      st.open_ports ++ (if r.state = RState.opn then [toPortInfo host r] else []) ∧
    (stepLine st (renderRow r)).filtered_ports =
      st.filtered_ports ++
        (if r.state = RState.filtered then [toPortInfo host r] else []) ∧
    (stepLine st (renderRow r)).closed_ports =
      st.closed_ports ++
        (if r.state = RState.closed then [toPortInfo host r] else []) := by
  have hhostnone : litDotPlusSearch hostLit (renderRow r) = none := hwf.2.2.2.2.2.2.2
  have hsearch := portSearch_render r hwf
  have hstrip : pyStrip (renderRow r) = renderRow r :=
    pyStrip_eq_self _ (renderRow_noEdgeWS r hwf)
  have hvstrip : pyStrip (match (if r.version = [] then none
      else some r.version : Option (List Char)) with
      | some v => v | none => []) = r.version := by
    by_cases hv0 : r.version = []
    · rw [if_pos hv0, hv0]
      rfl
    · rw [if_neg hv0]
      rcases hwf.2.2.2.2.2.2.1 with h | h
      · exact absurd h hv0
      · exact pyStrip_eq_self _ ⟨h.1, h.2.1⟩
  have l1 : pyLower (cs "open") = cs "open" := by decide
  have l2 : pyLower (cs "filtered") = cs "filtered" := by decide
  have l3 : pyLower (cs "closed") = cs "closed" := by decide
  have n1 : ¬ (cs "open" = cs "filtered") := by decide
  have n2 : ¬ (cs "open" = cs "closed") := by decide
  have n3 : ¬ (cs "filtered" = cs "open") := by decide
  have n4 : ¬ (cs "filtered" = cs "closed") := by decide
  have n5 : ¬ (cs "closed" = cs "open") := by decide
  have n6 : ¬ (cs "closed" = cs "filtered") := by decide
  cases hstate : r.state <;>
    rw [hstate] at hsearch <;>
    simp only [stateStr] at hsearch <;>
    simp only [stepLine, hstrip, hhostnone, hsearch, hch] <;>
    cases hos : litDotPlusSearch osLit (renderRow r) <;>
    cases hcv : checkVulnerability (natOfDigits r.port) r.service
      (match (if r.version = [] then none else some r.version : Option (List Char)) with
        | some v => v | none => []) <;>
    simp_all [toPortInfo, stateStr, l1, l2, l3, n1, n2, n3, n4, n5, n6]

/-- Folding the row lines distributes them over the three state buckets in
input order. -/
theorem foldRows (rows : List Row) (host : List Char) (st : NmapParser.LoopState)
    (hch : st.current_host = some host) (hw : ∀ r ∈ rows, wfRow r) :
    ((rows.map renderRow).foldl stepLine st).open_ports =
      st.open_ports ++
        (rows.filter (fun r => decide (r.state = RState.opn))).map (toPortInfo host) ∧
    ((rows.map renderRow).foldl stepLine st).filtered_ports =
      st.filtered_ports ++
        (rows.filter (fun r => decide (r.state = RState.filtered))).map (toPortInfo host) ∧
    ((rows.map renderRow).foldl stepLine st).closed_ports =
      st.closed_ports ++
        (rows.filter (fun r => decide (r.state = RState.closed))).map (toPortInfo host) := by
  induction rows generalizing st with
  | nil => simp
  | cons r rest ih =>
    obtain ⟨hc, ho, hf, hcl⟩ :=
      stepLine_row_proj st host r hch (hw r (List.mem_cons_self _ _))
    obtain ⟨io, ifo, ico⟩ := ih (stepLine st (renderRow r)) hc
      (fun x hx => hw x (List.mem_cons_of_mem _ hx))
    rw [List.map_cons, List.foldl_cons]
    refine ⟨?_, ?_, ?_⟩
    · rw [io, ho]
      cases hstate : r.state <;> simp [List.filter_cons, hstate]
    · rw [ifo, hf]
      cases hstate : r.state <;> simp [List.filter_cons, hstate]
    · rw [ico, hcl]
      cases hstate : r.state <;> simp [List.filter_cons, hstate]

end C8Lemmas

open NmapParser in
/-- C8: on a scan transcript of one host-report line followed by
well-formed rows, the parser returns exactly the `open` rows as
`open_ports` — in order, with the port numbers of the input rows — and the
`filtered`/`closed` rows land exactly in the `filtered_ports` and
`closed_ports` buckets, contributing nothing to `open_ports`. -/
theorem C8_open_rows_buckets (host : List Char) (rows : List Row)
    (hh : wfHost host) (hw : ∀ r ∈ rows, wfRow r) :
    (parse (mkScan host rows)).open_ports =
      (rows.filter (fun r => decide (r.state = RState.opn))).map (toPortInfo host) ∧
    (parse (mkScan host rows)).filtered_ports =
      (rows.filter (fun r => decide (r.state = RState.filtered))).map (toPortInfo host) ∧
    (parse (mkScan host rows)).closed_ports =
      (rows.filter (fun r => decide (r.state = RState.closed))).map (toPortInfo host) ∧
    (parse (mkScan host rows)).open_ports.map (fun p => p.port) =
      (rows.filter (fun r => decide (r.state = RState.opn))).map
        (fun r => natOfDigits r.port) := by
  have hlines : splitOnCh '\n' (mkScan host rows) =
      (hostLit ++ host) :: rows.map renderRow := by
    unfold mkScan
    have emap : (rows.map renderRow).map (fun x => '\n' :: x) =
        rows.map (fun r => '\n' :: renderRow r) := by
      rw [List.map_map]
      rfl
    rw [← emap]
    apply splitJoin
    · intro hm
      rcases List.mem_append.mp hm with h | h
      · exact absurd h (by decide)
      · exact hh.2.1 h
    · intro x hx
      obtain ⟨r, hr, hre⟩ := List.mem_map.mp hx
      rw [← hre]
      exact nl_not_mem_render r (hw r hr)
  unfold parse
  rw [hlines]
  simp only [List.foldl_cons]
  rw [stepLine_hostLine host hh]
  obtain ⟨ho, hf, hc⟩ :=
    foldRows rows host ⟨some host, [host], [], [], [], [], []⟩ rfl hw
  refine ⟨?_, ?_, ?_, ?_⟩
  · simpa using ho
  · simpa using hf
  · simpa using hc
  · have h1 : ((rows.map renderRow).foldl stepLine
        ⟨some host, [host], [], [], [], [], []⟩).open_ports =
      (rows.filter (fun r => decide (r.state = RState.opn))).map (toPortInfo host) := by
      simpa using ho
    simp [h1, toPortInfo]

open NmapParser in
/-- Witness for C8 at a concrete four-row scan (two open rows, one
filtered, one closed). -/
theorem C8_witness :
    wfHost C8Data.host ∧ (∀ r ∈ C8Data.rows, wfRow r) ∧
    ((parse (mkScan C8Data.host C8Data.rows)).open_ports =
      (C8Data.rows.filter (fun r => decide (r.state = RState.opn))).map
        (toPortInfo C8Data.host) ∧
    (parse (mkScan C8Data.host C8Data.rows)).filtered_ports =
      (C8Data.rows.filter (fun r => decide (r.state = RState.filtered))).map
        (toPortInfo C8Data.host) ∧
    (parse (mkScan C8Data.host C8Data.rows)).closed_ports =
      (C8Data.rows.filter (fun r => decide (r.state = RState.closed))).map
        (toPortInfo C8Data.host) ∧
    (parse (mkScan C8Data.host C8Data.rows)).open_ports.map (fun p => p.port) =
      (C8Data.rows.filter (fun r => decide (r.state = RState.opn))).map
        (fun r => natOfDigits r.port)) :=
  ⟨by decide, by decide,
   C8_open_rows_buckets C8Data.host C8Data.rows (by decide) (by decide)⟩

open DecisionEngine in
/-- Witness for C10 at the concrete tool identifier `wfuzz`. -/
theorem C10_witness :
    (cs "wfuzz") ∉ [cs "nmap", cs "metasploit", cs "sqlmap", cs "nikto",
                    cs "gobuster", cs "hydra"] ∧
    analyze_and_decide (cs "T") C10Data.someData (cs "wfuzz") =
      ⟨cs "T", cs "wfuzz", [], [], [], []⟩ :=
  ⟨by decide, C10_unknown_tool_empty (cs "T") C10Data.someData (cs "wfuzz") (by decide)⟩

end KaliGpt
